import Mathlib

/-!
# SockTest: a verification development

Shallow embedding of the payload generator (`rng.h`), the benchmark protocol
engine (`app.cpp`) and the networking-subsystem reference count
(`objsock.h`) of the SockTest repository.

Conventions.
* Machine integers are `Nat`/`Int`; 64-bit shifts are truncated with
  `% 2 ^ 64` where the C++ shift can overflow.
* A byte is a `Nat` below 256; a buffer is a `List Nat`.
* The host is little-endian (the program is Windows-only): storing a
  `uint64_t` or an `int` into a byte buffer puts the least-significant byte at
  the lowest address.
-/

namespace SockTest

/-! ## rng.h -/

/-- The constant `SUGGEST_INITIAL` of rng.h. -/
def SUGGEST_INITIAL : Nat := 0xCAFEBABEDEADBEEF

/-- The function `xorshift64` of rng.h: the three shift-xor steps on a 64-bit word. -/
def xorshift64 (state : Nat) : Nat :=
  let x := state
  let x := x ^^^ ((x <<< 13) % 2 ^ 64)
  let x := x ^^^ (x >>> 7)
  let x := x ^^^ ((x <<< 17) % 2 ^ 64)
  x

/-- Byte `j` (0 is the lowest address) of a 64-bit word stored in memory. -/
def wordByte (v j : Nat) : Nat := (v >>> (8 * j)) % 256

/-- The eight bytes of a 64-bit word as laid out in memory. -/
def wordBytes (v : Nat) : List Nat := (List.range 8).map (wordByte v)

/-- The call `std::generate_n(wBuff, wordCount, [&v]() { return (v = xorshift64(v)); })`:
the words stored, in order, and the final value of the captured `v`. -/
def generate_n : Nat → Nat → List Nat × Nat
  | 0, v => ([], v)
  | n + 1, v =>
    let v1 := xorshift64 v
    let r := generate_n n v1
    (v1 :: r.1, r.2)

/-- Concatenation of the memory images of a list of words. -/
def wordsToBytes : List Nat → List Nat
  | [] => []
  | w :: ws => wordBytes w ++ wordsToBytes ws

/-- The function `fillRandom` of rng.h: the bytes stored at offsets `0 .. sz-1` of `buff`. -/
def fillRandom (sz : Nat) : List Nat :=
  let v := SUGGEST_INITIAL
  let wordCount := sz / 8
  let g := generate_n wordCount v
  let v := g.2
  if sz % 8 ≠ 0 then
    let v := xorshift64 v
    wordsToBytes g.1 ++ (wordBytes v).take (sz % 8)
  else
    wordsToBytes g.1

/-- Reference byte `i` of the payload that starts from generator state `v`:
byte `i % 8` of the word obtained after `i / 8 + 1` generator steps. -/
def refByteFrom (v i : Nat) : Nat := wordByte (xorshift64^[i / 8 + 1] v) (i % 8)


/-! ## The stream transport, as seen by one endpoint

The Winsock calls are outside the repository; they are modelled by a
connected endpoint `Conn`.  `rx` holds, in order, the bytes the peer sends
before it disconnects; `tx` collects, in order, the bytes the transport has
accepted from this endpoint.  `sched n` says what the `n`-th `send`/`recv`
call on the socket does: fail, or move at most `k` bytes. -/

/-- The Winsock constant `SOCKET_ERROR`. -/
def SOCKET_ERROR : Int := -1

/-- Behaviour of the transport on one `send` or `recv` call. -/
inductive Ev where
  | err : Ev
  | move (k : Nat) : Ev
deriving DecidableEq, Repr

/-- A connected stream endpoint. -/
structure Conn where
  rx : List Nat
  tx : List Nat
  sched : Nat → Ev
  calls : Nat

/-- The call `recv(sock, buf, len, flags)`: the returned count and the bytes
stored at `buf`.  A failing call returns `SOCKET_ERROR`; otherwise at most
`len` bytes are taken from the front of the stream, and 0 is returned when
nothing is moved (the peer has disconnected). -/
def recv (c : Conn) (len : Nat) : Int × List Nat × Conn :=
  match c.sched c.calls with
  | Ev.err => (SOCKET_ERROR, [], { c with calls := c.calls + 1 })
  | Ev.move k =>
    let got := c.rx.take (min k len)
    ((got.length : Int), got, { c with rx := c.rx.drop (min k len), calls := c.calls + 1 })

/-- The call `send(sock, buf, len, flags)` where `data` are the `len` bytes at
`buf`: the returned count.  A failing call returns `SOCKET_ERROR`; otherwise
the first `min k len` bytes are appended to the outgoing stream. -/
def send (c : Conn) (data : List Nat) : Int × Conn :=
  match c.sched c.calls with
  | Ev.err => (SOCKET_ERROR, { c with calls := c.calls + 1 })
  | Ev.move k =>
    let put := data.take k
    ((put.length : Int), { c with tx := c.tx ++ put, calls := c.calls + 1 })

/-- Observable actions of the process, in program order.  For `recv` and
`send` the fields are the offset of `buf` inside the destination or source
object, the requested length and the returned count. -/
inductive Op where
  | puts (msg : String) : Op
  | print (fmt : String) : Op
  | print_help : Op
  | accept : Op
  | connect (rc : Int) : Op
  | closesocket : Op
  | alloc (n : Nat) : Op
  | recv (off len : Nat) (rd : Int) : Op
  | send (off len : Nat) (rd : Int) : Op
  | sleep (ms : Nat) : Op
deriving DecidableEq, Repr

/-- State of the process: the actions performed so far and the connected
socket in use (`commSock` in the server, `sockObj` in the client). -/
structure World where
  log : List Op
  conn : Conn

/-- Append one action to the log. -/
def World.emit (w : World) (op : Op) : World := { w with log := w.log ++ [op] }

/-- Store `data` into `buf` starting at offset `off`. -/
def writeAt (buf : List Nat) (off : Nat) (data : List Nat) : List Nat :=
  buf.take off ++ data ++ buf.drop (off + data.length)

/-- Value of a little-endian byte string. -/
def leValue : List Nat → Nat
  | [] => 0
  | b :: bs => b + 256 * leValue bs

/-- The `int` whose object representation is the four given bytes. -/
def readInt (bs : List Nat) : Int :=
  let u : Nat := leValue bs % 2 ^ 32
  if u < 2 ^ 31 then (u : Int) else (u : Int) - 2 ^ 32

/-- The object representation of an `int`. -/
def intBytes (v : Int) : List Nat :=
  let u := (v % 2 ^ 32).toNat
  [u % 256, u / 256 % 256, u / 65536 % 256, u / 16777216 % 256]

/-! ## app.cpp: the transfer loops -/

/-- The receive loops of app.cpp (server, lines 155-163; client, lines
283-290): `for (int i = 0; i < buffsz;) { rd = recv(sock, buf + i, buffsz - i,
MSG_WAITALL); if (rd == SOCKET_ERROR) { puts(msg); <leave>; } i += rd; }`.
The result is the error flag, the final value of `i`, the buffer and the
state; `none` when the loop is still running after `fuel` iterations. -/
def recvLoop (msg : String) (buffsz : Int) (fuel : Nat) (i : Int) (buf : List Nat)
    (w : World) : Option (Bool × Int × List Nat × World) :=
  if i < buffsz then
    match fuel with
    | 0 => none
    | fuel + 1 =>
      let r := recv w.conn (buffsz - i).toNat
      let rd := r.1
      let buf := writeAt buf i.toNat r.2.1
      let w : World :=
        { log := w.log ++ [Op.recv i.toNat (buffsz - i).toNat rd], conn := r.2.2 }
      if rd = SOCKET_ERROR then
        some (true, i, buf, w.emit (Op.puts msg))
      else
        recvLoop msg buffsz fuel (i + rd) buf w
  else
    some (false, i, buf, w)

/-- The send loops of app.cpp (server echo, lines 175-183; client, lines
267-274): `for (int i = 0; i < buffsz;) { rd = send(sock, buf + i, buffsz - i,
0); if (rd == SOCKET_ERROR) { puts(msg); <leave>; } i += rd; }`. -/
def sendLoop (msg : String) (buffsz : Int) (buf : List Nat) (fuel : Nat) (i : Int)
    (w : World) : Option (Bool × Int × World) :=
  if i < buffsz then
    match fuel with
    | 0 => none
    | fuel + 1 =>
      let r := send w.conn ((buf.drop i.toNat).take (buffsz - i).toNat)
      let rd := r.1
      let w : World :=
        { log := w.log ++ [Op.send i.toNat (buffsz - i).toNat rd], conn := r.2 }
      if rd = SOCKET_ERROR then
        some (true, i, w.emit (Op.puts msg))
      else
        sendLoop msg buffsz buf fuel (i + rd) w
  else
    some (false, i, w)

/-! ## app.cpp: command_server -/

/-- One pass of the body of `while (!stop)` in command_server (lines 135-183):
the final value of `stop`, the receive buffer and the state. -/
def serverCycle (buffsz : Int) (fuel : Nat) (recvBuff : List Nat) (w : World) :
    Option (Bool × List Nat × World) :=
  let w := w.emit (Op.puts "Processing data from client ...")
  let r := recv w.conn 1
  let w : World := { log := w.log ++ [Op.recv 0 1 r.1], conn := r.2.2 }
  if r.1 ≠ 1 then
    some (true, recvBuff, w.emit (Op.puts "Command error"))
  else
    let status := r.2.1.headD 0
    if status = 1 then
      match recvLoop "Error receiving data from client." buffsz fuel 0 recvBuff w with
      | none => none
      | some (true, _, recvBuff, w) => some (true, recvBuff, w)
      | some (false, _, recvBuff, w) =>
        let s := send w.conn [1]
        let w : World := { log := w.log ++ [Op.send 0 1 s.1], conn := s.2 }
        if s.1 ≠ 1 then
          some (true, recvBuff, w.emit (Op.puts "Error sending command"))
        else
          match sendLoop "Error sending data to client." buffsz recvBuff fuel 0 w with
          | none => none
          | some (stop, _, w) => some (stop, recvBuff, w)
    else if status = 0 then
      some (true, recvBuff, w.emit (Op.puts "Client asked to stop"))
    else
      some (true, recvBuff, w.emit (Op.puts "Unknown command"))

/-- The loop `while (!stop)` of command_server (lines 133-184), entered with
`stop == false`: the state when the loop is left. -/
def sessionLoop (buffsz : Int) : Nat → List Nat → World → Option World
  | 0, _, _ => none
  | fuel + 1, recvBuff, w =>
    match serverCycle buffsz fuel recvBuff w with
    | none => none
    | some (true, _, w) => some w
    | some (false, recvBuff, w) => sessionLoop buffsz fuel recvBuff w

/-- The loop `for (;;)` of command_server (lines 108-185), entered once bind
and listen have succeeded.  `backlog` lists what the successive `accept` calls
return: `none` for `INVALID_SOCKET`, otherwise the connected endpoint; when it
is exhausted the server stays blocked in `accept`, which is the final state
returned.  The destructor of `commSock` closes a valid socket whenever an
iteration ends.  `none`: an inner loop is still running after `fuel`
iterations. -/
def command_server (fuel : Nat) : List (Option Conn) → World → Option World
  | [], w => some ((w.emit (Op.puts "Waiting for connection ...")).emit Op.accept)
  | none :: backlog, w =>
    let w := (w.emit (Op.puts "Waiting for connection ...")).emit Op.accept
    command_server fuel backlog (w.emit (Op.puts "Connection error"))
  | some c :: backlog, w =>
    let w := (w.emit (Op.puts "Waiting for connection ...")).emit Op.accept
    let r := recv c 4
    let w : World := { log := w.log ++ [Op.recv 0 4 r.1], conn := r.2.2 }
    if r.1 ≠ 4 then
      command_server fuel backlog
        ((w.emit (Op.puts "Invalid buffer length.")).emit Op.closesocket)
    else
      let buffsz := readInt r.2.1
      if buffsz ≤ 0 then
        command_server fuel backlog
          ((w.emit (Op.puts "Invalid buffer size.")).emit Op.closesocket)
      else
        let w := w.emit (Op.print "Client requested buffer size of \x7b\x7d. Allocating ...")
        let w := w.emit (Op.alloc buffsz.toNat)
        let recvBuff := List.replicate buffsz.toNat 0
        match sessionLoop buffsz fuel recvBuff w with
        | none => none
        | some w => command_server fuel backlog (w.emit Op.closesocket)

/-! ## app.cpp: command_client -/

/-- The enumeration `SockType` of app.cpp. -/
inductive SockType where
  | UNDEF : SockType
  | HYPERV : SockType
  | TCP : SockType
deriving DecidableEq, Repr

/-- The type `Socket::SockArg` (a string-to-string map), as an association list. -/
abbrev SockArg := List (String × String)

/-- The assignment `ret[key] = value` on a `SockArg`. -/
def SockArg.assign (m : SockArg) (key value : String) : SockArg :=
  (key, value) :: m.filter (fun kv => kv.1 ≠ key)

/-- How a command function is left: by return, or by an exception that
propagates to `main`. -/
inductive Exit where
  | ret : Exit
  | exn (what : String) : Exit
deriving DecidableEq, Repr

/-- Answers of the platform (C++ runtime and Winsock) to the set-up calls of
the client; none of these functions is defined in the repository.  `stoi`
yields `none` when `std::stoi` throws. -/
structure Env where
  wsaStartupOk : Bool
  socketOk : Bool
  getaddrinfoRc : String → String → Int
  uuidOk : String → Bool
  connectRc : Int
  stoi : String → Option Int

/-- The loop of `parse_socket_options` over the remaining arguments. -/
def parseOptionsFrom : List String → SockArg → Except String SockArg
  | [], ret => Except.ok ret
  | arg :: rest, ret =>
    let cs := arg.toList
    let key := cs.takeWhile (fun ch => ch ≠ '=')
    match cs.dropWhile (fun ch => ch ≠ '=') with
    | [] => Except.error "Invalid socket option format."
    | _ :: value => parseOptionsFrom rest (SockArg.assign ret (String.mk key) (String.mk value))

/-- The function `parse_socket_options` of app.cpp: the arguments
`argv[0] .. argv[argc-1]` split at their first `=`. -/
def parse_socket_options (argc : Int) (argv : List String) : Except String SockArg :=
  parseOptionsFrom (argv.take argc.toNat) []

/-- The function `get_socket_object` of app.cpp together with the `Socket`
constructor of objsock.h that it runs: `none` is the null pointer, otherwise
the variant and whether `sock_` is a valid handle; the constructor throws when
`WSAStartup` fails. -/
def get_socket_object (env : Env) (type : SockType) : Except String (Option (SockType × Bool)) :=
  match type with
  | SockType.UNDEF => Except.ok none
  | t =>
    if env.wsaStartupOk then Except.ok (some (t, env.socketOk))
    else Except.error "Unable to startup winsock"

/-- The method `HyperVSocket::parseArgs` (hypervsock.h lines 46-57): the
message of the exception it throws, `none` when it returns. -/
def parseArgs (env : Env) (args : SockArg) : Option String :=
  match args.lookup "addr" with
  | some a =>
    if env.uuidOk a = false then some "Invalid bind address GUID."
    else
      match args.lookup "appid" with
      | none => some "std::out_of_range"
      | some app => if env.uuidOk app = false then some "Invalid service GUID." else none
  | none =>
    match args.lookup "appid" with
    | none => some "std::out_of_range"
    | some app => if env.uuidOk app = false then some "Invalid service GUID." else none

/-- The method `connectSocket` of the two variants (tcpsock.h lines 15-57 with
`conn == true`, hypervsock.h lines 26-37): the value returned by `connect`,
which is logged when it is called. -/
def connectSocket (env : Env) (obj : SockType × Bool) (args : SockArg) (w : World) :
    Except String (Int × World) :=
  if obj.2 = false then Except.error "Invalid socket."
  else
    match obj.1 with
    | SockType.TCP =>
      match args.lookup "host" with
      | none => Except.error "Address must be specified."
      | some host =>
        match args.lookup "port" with
        | none => Except.error "std::out_of_range"
        | some port =>
          if env.getaddrinfoRc host port ≠ 0 then
            Except.error "Error parsing specified address."
          else
            Except.ok (env.connectRc, w.emit (Op.connect env.connectRc))
    | _ =>
      match parseArgs env args with
      | some what => Except.error what
      | none => Except.ok (env.connectRc, w.emit (Op.connect env.connectRc))

/-- The call `memcmp(a, b, n)`: zero exactly when the first `n` bytes agree,
otherwise the sign of the first difference. -/
def memcmp : List Nat → List Nat → Nat → Int
  | a :: as, b :: bs, n + 1 => if a = b then memcmp as bs n else if a < b then -1 else 1
  | _, _, _ => 0

/-- First half of the body of the repetition loop of command_client (lines
257-274): zero the receive buffer, send the command byte 1, send the payload.
The flag tells that the function returns. -/
def clientSend (buffsz : Int) (reffBuf : List Nat) (fuel : Nat) (w : World) :
    Option (Bool × List Nat × World) :=
  let recvBuf := List.replicate buffsz.toNat 0
  let s := send w.conn [1]
  let w : World := { log := w.log ++ [Op.send 0 1 s.1], conn := s.2 }
  if s.1 ≠ 1 then
    some (true, recvBuf, w.emit (Op.puts "Error sending command"))
  else
    let w := w.emit (Op.puts "Sending ...")
    match sendLoop "Error sending data to server" buffsz reffBuf fuel 0 w with
    | none => none
    | some (ret, _, w) => some (ret, recvBuf, w)

/-- Second half of the body of the repetition loop of command_client (lines
275-305): wait for the acknowledgment byte, receive the echo, compare it with
the reference payload, report and sleep.  The flag tells that the function
returns. -/
def clientRecv (buffsz : Int) (reffBuf : List Nat) (fuel : Nat) (recvBuf : List Nat)
    (w : World) : Option (Bool × List Nat × World) :=
  let r := recv w.conn 1
  let w : World := { log := w.log ++ [Op.recv 0 1 r.1], conn := r.2.2 }
  if r.1 ≠ 1 then
    some (true, recvBuf, w.emit (Op.puts "Error receiving server ack"))
  else
    let w := w.emit (Op.puts "Receiving ...")
    match recvLoop "Error receiving data from server" buffsz fuel 0 recvBuf w with
    | none => none
    | some (true, _, recvBuf, w) => some (true, recvBuf, w)
    | some (false, _, recvBuf, w) =>
      let w := w.emit (Op.puts "Comparing data ...")
      if memcmp recvBuf reffBuf buffsz.toNat ≠ 0 then
        some (true, recvBuf, w.emit (Op.puts "Data mismatch!"))
      else
        let w := w.emit (Op.print "Time send")
        let w := w.emit (Op.print "Time recv")
        let w := w.emit (Op.print "Rate send")
        let w := w.emit (Op.print "Rate recv")
        let w := w.emit (Op.puts "")
        some (false, recvBuf, w.emit (Op.sleep 500))

/-- The body of the repetition loop of command_client (lines 257-305). -/
def clientIter (buffsz : Int) (reffBuf : List Nat) (fuel : Nat) (w : World) :
    Option (Bool × List Nat × World) :=
  match clientSend buffsz reffBuf fuel w with
  | none => none
  | some (true, recvBuf, w) => some (true, recvBuf, w)
  | some (false, recvBuf, w) => clientRecv buffsz reffBuf fuel recvBuf w

/-- The loop `for (int i = 0; i < repetition; ++i)` of command_client (lines
256-306) with `n = repetition - i` repetitions left: the state when
command_client returns. -/
def clientLoop (buffsz : Int) (reffBuf : List Nat) (fuel : Nat) : Nat → World → Option World
  | 0, w => some w
  | n + 1, w =>
    match clientIter buffsz reffBuf fuel w with
    | none => none
    | some (true, _, w) => some w
    | some (false, _, w) => clientLoop buffsz reffBuf fuel n w

/-- The function `command_client` of app.cpp (lines 214-307; the timing
lambdas only feed the report lines).  `argv` are the arguments after the
command word and `argc` is their number; `w.conn` is the endpoint that
`sockObj` becomes once `connect` succeeds. -/
def command_client (env : Env) (sockType : SockType) (argv : List String) (fuel : Nat)
    (w : World) : Option (Exit × World) :=
  let argc : Int := argv.length
  match get_socket_object env sockType with
  | Except.error what => some (Exit.exn what, w)
  | Except.ok none => some (Exit.ret, w.emit (Op.puts "Unknown socket"))
  | Except.ok (some sockObj) =>
    match parse_socket_options (argc - 2) (argv.drop 2) with
    | Except.error what => some (Exit.exn what, w)
    | Except.ok sockOpt =>
      match connectSocket env sockObj sockOpt w with
      | Except.error what => some (Exit.exn what, w)
      | Except.ok (rc, w) =>
        if rc ≠ 0 then some (Exit.ret, w.emit (Op.puts "Error connecting to server."))
        else if argc < 2 then some (Exit.ret, w.emit Op.print_help)
        else
          match env.stoi (argv.getD 0 "") with
          | none => some (Exit.exn "std::stoi", w)
          | some repetition =>
            if repetition ≤ 0 then some (Exit.ret, w.emit (Op.puts "Nothing to do."))
            else
              match env.stoi (argv.getD 1 "") with
              | none => some (Exit.exn "std::stoi", w)
              | some buffsz =>
                if buffsz ≤ 0 then some (Exit.ret, w.emit (Op.puts "Invalid buffer size."))
                else
                  let w := w.emit (Op.print "Allocating 2x \x7b\x7d bytes buffer ...")
                  let w := w.emit (Op.alloc buffsz.toNat)
                  let w := w.emit (Op.alloc buffsz.toNat)
                  let w := w.emit (Op.puts "Generating reference data ...")
                  let reffBuf := fillRandom buffsz.toNat
                  let s := send w.conn (intBytes buffsz)
                  let w : World := { log := w.log ++ [Op.send 0 4 s.1], conn := s.2 }
                  if s.1 = SOCKET_ERROR then
                    some (Exit.ret, w.emit (Op.puts "Error telling server about buffer size"))
                  else
                    match clientLoop buffsz reffBuf fuel repetition.toNat w with
                    | none => none
                    | some w => some (Exit.ret, w)

/-! ## objsock.h: the Winsock reference count -/

/-- The Winsock constant `INVALID_SOCKET` (all bits set in a 64-bit handle). -/
def INVALID_SOCKET : Nat := 2 ^ 64 - 1

/-- The static members of `Socket` together with the live `Socket` objects:
`socks` holds the member `sock_` of every live object, in order of
construction.  `cleanups` counts the calls of `WSACleanup` and `closed` lists
the handles passed to `closesocket`. -/
structure Wsa where
  wsadataValid_ : Bool
  wsadataRefcount_ : Nat
  socks : List Nat
  cleanups : Nat
  closed : List Nat
deriving DecidableEq, Repr

/-- The state at program start (objsock.h lines 113-115), no object alive. -/
def Wsa.start : Wsa :=
  { wsadataValid_ := false, wsadataRefcount_ := 0, socks := [], cleanups := 0, closed := [] }

/-- The method `Socket::wsaInit` (lines 65-72); `startupOk` tells whether
`WSAStartup` returns `NOERROR`; `none` when the method throws. -/
def wsaInit (startupOk : Bool) (g : Wsa) : Option Wsa :=
  if g.wsadataValid_ = false then
    let g := { g with wsadataValid_ := startupOk }
    if g.wsadataValid_ = false then none else some g
  else some g

/-- The constructors `Socket(int, int, int)` (lines 78-84, `s` is what
`socket` returns) and `Socket(SOCKET s)` (lines 86-92).  When `wsaInit` throws
no object comes to life. -/
def Socket_ctor (startupOk : Bool) (s : Nat) (g : Wsa) : Wsa :=
  match wsaInit startupOk g with
  | none => g
  | some g =>
    let g := { g with socks := g.socks ++ [s] }
    if s ≠ INVALID_SOCKET then
      { g with wsadataRefcount_ := (g.wsadataRefcount_ + 1) % 2 ^ 64 }
    else g

/-- The defaulted constructor `Socket()` (line 15): `sock_` is `INVALID_SOCKET`. -/
def Socket_default (g : Wsa) : Wsa :=
  { g with socks := g.socks ++ [INVALID_SOCKET] }

/-- The move assignment `operator=(Socket&& other)` (lines 36-40) on the live
objects number `dst` (`*this`) and `src` (`other`):
`sock_ = other.sock_; other.sock_ = INVALID_SOCKET;`. -/
def Socket_moveAssign (dst src : Nat) (g : Wsa) : Wsa :=
  if dst < g.socks.length ∧ src < g.socks.length then
    let socks := g.socks.set dst (g.socks.getD src INVALID_SOCKET)
    { g with socks := socks.set src INVALID_SOCKET }
  else g

/-- The move constructor `Socket(Socket&& other)` (lines 32-34): the new
object starts with `sock_ = INVALID_SOCKET` and is move-assigned from `other`. -/
def Socket_moveCtor (src : Nat) (g : Wsa) : Wsa :=
  if src < g.socks.length then
    Socket_moveAssign g.socks.length src { g with socks := g.socks ++ [INVALID_SOCKET] }
  else g

/-- The destructor `~Socket()` (lines 17-26) of the live object number `idx`,
which then stops being alive. -/
def Socket_dtor (idx : Nat) (g : Wsa) : Wsa :=
  if idx < g.socks.length then
    let s := g.socks.getD idx INVALID_SOCKET
    let g := { g with socks := g.socks.eraseIdx idx }
    if s ≠ INVALID_SOCKET then
      let g := { g with closed := g.closed ++ [s],
                        wsadataRefcount_ := (g.wsadataRefcount_ + 2 ^ 64 - 1) % 2 ^ 64 }
      if g.wsadataRefcount_ = 0 then
        { g with cleanups := g.cleanups + 1, wsadataValid_ := false }
      else g
    else g
  else g

/-- One event in the life of the `Socket` objects of a process. -/
inductive SockOp where
  | ctor (startupOk : Bool) (s : Nat) : SockOp
  | dflt : SockOp
  | moveCtor (src : Nat) : SockOp
  | moveAssign (dst src : Nat) : SockOp
  | dtor (idx : Nat) : SockOp
deriving DecidableEq, Repr

/-- Run one event. -/
def SockOp.run : SockOp → Wsa → Wsa
  | SockOp.ctor ok s, g => Socket_ctor ok s g
  | SockOp.dflt, g => Socket_default g
  | SockOp.moveCtor src, g => Socket_moveCtor src g
  | SockOp.moveAssign dst src, g => Socket_moveAssign dst src g
  | SockOp.dtor idx, g => Socket_dtor idx g

/-- Run a sequence of events, oldest first. -/
def runOps (ops : List SockOp) (g : Wsa) : Wsa := ops.foldl (fun g op => op.run g) g

/-- Number of live `Socket` objects that hold a valid handle. -/
def liveValid (g : Wsa) : Nat := (g.socks.filter (fun s => s ≠ INVALID_SOCKET)).length

/-! ## Specification vocabulary -/

/-- The transport moves at least one byte on every call from now on and never fails. -/
def Progress (c : Conn) : Prop :=
  ∀ j, c.calls ≤ j → ∃ k, 0 < k ∧ c.sched j = Ev.move k

/-- The actions of a transfer loop over a buffer of `S` bytes that moves the
counts `chunks` call after call, the first call starting at offset `i`. -/
def xferOps (mk : Nat → Nat → Int → Op) (S : Nat) : Nat → List Nat → List Op
  | _, [] => []
  | i, c :: cs => mk i (S - i) (c : Int) :: xferOps mk S (i + c) cs

/-- A `recv` or `send` action stays inside a buffer of `S` bytes and moves
between 1 and the requested number of bytes; other actions are unconstrained. -/
def Op.within (S : Nat) : Op → Prop
  | Op.recv off len rd => off + len ≤ S ∧ 0 < rd ∧ rd ≤ (len : Int)
  | Op.send off len rd => off + len ≤ S ∧ 0 < rd ∧ rd ≤ (len : Int)
  | _ => True

/-- A receive loop started in state `w` ended without error with `i = S`,
having stored bytes `0 .. S-1` of the incoming stream, in order, as the whole
buffer, by calls that tile the offsets `0 .. S-1` and stay inside the buffer. -/
def RecvAllOk (S : Nat) (w : World) (res : Option (Bool × Int × List Nat × World)) : Prop :=
  ∃ w' chunks,
    res = some (false, (S : Int), w.conn.rx.take S, w') ∧
    w'.conn.rx = w.conn.rx.drop S ∧ w'.conn.tx = w.conn.tx ∧
    w'.log = w.log ++ xferOps Op.recv S 0 chunks ∧
    (∀ c ∈ chunks, 0 < c) ∧ chunks.sum = S ∧
    ∀ op ∈ xferOps Op.recv S 0 chunks, Op.within S op

/-- A send loop over `buf` started in state `w` ended without error with
`i = S`, having appended the `S` bytes of `buf`, in order, to the outgoing
stream, by calls that tile the offsets `0 .. S-1` and stay inside the buffer. -/
def SendAllOk (S : Nat) (buf : List Nat) (w : World) (res : Option (Bool × Int × World)) : Prop :=
  ∃ w' chunks,
    res = some (false, (S : Int), w') ∧
    w'.conn.tx = w.conn.tx ++ buf ∧ w'.conn.rx = w.conn.rx ∧
    w'.log = w.log ++ xferOps Op.send S 0 chunks ∧
    (∀ c ∈ chunks, 0 < c) ∧ chunks.sum = S ∧
    ∀ op ∈ xferOps Op.send S 0 chunks, Op.within S op

/-- The server resumed at the top of `while (!stop)` inside a session
(state AwaitingCommand), `backlog` being the connections still to come: the
session runs to its end, the destructor of `commSock` closes the socket and
the accept loop goes on.  `sfuel` bounds the command loop. -/
def resumeSession (buffsz : Int) (sfuel fuel : Nat) (recvBuff : List Nat) (w : World)
    (backlog : List (Option Conn)) : Option World :=
  match sessionLoop buffsz sfuel recvBuff w with
  | none => none
  | some w => command_server fuel backlog (w.emit Op.closesocket)

/-- The actions that end a client repetition after the receive loop: the
comparison, then either the mismatch diagnostic or the report and the pause. -/
def compareOps (equal : Bool) : List Op :=
  if equal then
    [Op.puts "Comparing data ...", Op.print "Time send", Op.print "Time recv",
      Op.print "Rate send", Op.print "Rate recv", Op.puts "", Op.sleep 500]
  else
    [Op.puts "Comparing data ...", Op.puts "Data mismatch!"]

/-- Deliver to the endpoint of `w` the bytes `sent`, in order and without loss. -/
def World.deliver (w : World) (sent : List Nat) : World :=
  { w with conn := { w.conn with rx := w.conn.rx ++ sent } }

/-- One client repetition against one server cycle over a lossless in-order
stream: the client runs the first half of its loop body; what it wrote is
delivered to the server, which runs one pass of its command loop; what the
server wrote is delivered to the client, which runs the second half of its
loop body.  The result is the outcome of the client and of the server. -/
def echoCycle (buffsz : Int) (reffBuf : List Nat) (fuel : Nat) (recvBuff : List Nat)
    (cw sw : World) :
    Option ((Bool × List Nat × World) × (Bool × List Nat × World)) :=
  match clientSend buffsz reffBuf fuel cw with
  | none => none
  | some (true, recvBuf, cw1) => some ((true, recvBuf, cw1), (false, recvBuff, sw))
  | some (false, recvBuf, cw1) =>
    match serverCycle buffsz fuel recvBuff
        (sw.deliver (cw1.conn.tx.drop cw.conn.tx.length)) with
    | none => none
    | some (stop, recvBuff1, sw1) =>
      match clientRecv buffsz reffBuf fuel recvBuf
          (cw1.deliver (sw1.conn.tx.drop sw.conn.tx.length)) with
      | none => none
      | some r => some (r, (stop, recvBuff1, sw1))

/-- The events under which the reference count is exact: every move
assignment targets an object that holds no valid handle. -/
def SockOp.tame (g : Wsa) : SockOp → Prop
  | SockOp.moveAssign dst _ => g.socks.getD dst INVALID_SOCKET = INVALID_SOCKET
  | _ => True

/-- A run in which every event is tame in the state it meets and fewer than
2^64 - 1 objects are alive. -/
def TameRun : List SockOp → Wsa → Prop
  | [], _ => True
  | op :: ops, g => op.tame g ∧ g.socks.length + 1 < 2 ^ 64 ∧ TameRun ops (op.run g)

/-- The reference count is exact and the subsystem is up while a valid handle lives. -/
def RefcountExact (g : Wsa) : Prop :=
  g.wsadataRefcount_ = liveValid g ∧ (0 < liveValid g → g.wsadataValid_ = true)

/-! ## Concrete inputs -/

/-- A client that announces a 2-byte buffer, sends the command byte 1 and a
single payload byte, and then disconnects; the transport never fails. -/
def shortPeer : Conn := ⟨[2, 0, 0, 0, 1, 7], [], fun _ => Ev.move 8, 0⟩

/-- A platform on which every set-up call succeeds and `std::stoi` reads the
decimal strings "0", "1" and "2". -/
def demoEnv : Env :=
  { wsaStartupOk := true, socketOk := true, getaddrinfoRc := fun _ _ => 0,
    uuidOk := fun _ => true, connectRc := 0,
    stoi := fun s => if s = "0" then some 0 else if s = "1" then some 1
      else if s = "2" then some 2 else none }

/-- An endpoint on which nothing has happened yet and no byte will arrive. -/
def idleWorld : World := ⟨[], ⟨[], [], fun _ => Ev.move 1, 0⟩⟩

/-! ## rng.h: lemmas -/

/-- The generator stays within 64 bits. -/
theorem xorshift64_lt (state : Nat) (h : state < 2 ^ 64) : xorshift64 state < 2 ^ 64 := by
  unfold xorshift64
  have h1 : state ^^^ ((state <<< 13) % 2 ^ 64) < 2 ^ 64 :=
    Nat.xor_lt_two_pow h (Nat.mod_lt _ (by decide))
  have h2 : (state ^^^ ((state <<< 13) % 2 ^ 64)) >>> 7 < 2 ^ 64 :=
    Nat.lt_of_le_of_lt (by rw [Nat.shiftRight_eq_div_pow]; exact Nat.div_le_self _ _) h1
  have h3 := Nat.xor_lt_two_pow h1 h2
  exact Nat.xor_lt_two_pow h3 (Nat.mod_lt _ (by decide))

theorem SUGGEST_INITIAL_lt : SUGGEST_INITIAL < 2 ^ 64 := by decide

theorem generate_n_snd (n v : Nat) : (generate_n n v).2 = xorshift64^[n] v := by
  induction n generalizing v with
  | zero => rfl
  | succ n ih => simp [generate_n, ih, Function.iterate_succ_apply]

theorem refByteFrom_lt8 (v j : Nat) (hj : j < 8) :
    refByteFrom v j = wordByte (xorshift64 v) j := by
  unfold refByteFrom
  have h1 : j / 8 = 0 := Nat.div_eq_of_lt hj
  have h2 : j % 8 = j := Nat.mod_eq_of_lt hj
  rw [h1, h2]
  rfl

theorem refByteFrom_add8 (v i : Nat) :
    refByteFrom v (8 + i) = refByteFrom (xorshift64 v) i := by
  unfold refByteFrom
  have h1 : (8 + i) / 8 = i / 8 + 1 := by omega
  have h2 : (8 + i) % 8 = i % 8 := by omega
  rw [h1, h2, Function.iterate_succ_apply]

theorem refByteFrom_block (v q j : Nat) (hj : j < 8) :
    refByteFrom v (8 * q + j) = wordByte (xorshift64 (xorshift64^[q] v)) j := by
  unfold refByteFrom
  have h1 : (8 * q + j) / 8 = q := by omega
  have h2 : (8 * q + j) % 8 = j := by omega
  rw [h1, h2, Function.iterate_succ_apply']

theorem wordsToBytes_generate_n (n v : Nat) :
    wordsToBytes (generate_n n v).1 = (List.range (8 * n)).map (refByteFrom v) := by
  induction n generalizing v with
  | zero => rfl
  | succ n ih =>
    have h8 : 8 * (n + 1) = 8 + 8 * n := by ring
    rw [h8, List.range_add, List.map_append, List.map_map]
    simp only [generate_n, wordsToBytes, ih, wordBytes]
    have hhead : (List.range 8).map (refByteFrom v) =
        (List.range 8).map (wordByte (xorshift64 v)) := by
      apply List.map_congr_left
      intro j hj
      rw [refByteFrom_lt8 v j (List.mem_range.mp hj)]
    have htail : (List.range (8 * n)).map (refByteFrom v ∘ fun x => 8 + x) =
        (List.range (8 * n)).map (refByteFrom (xorshift64 v)) := by
      apply List.map_congr_left
      intro i _
      simp only [Function.comp_apply]
      rw [refByteFrom_add8]
    rw [hhead, htail]

/-- The payload is the list of reference bytes `0 .. sz-1`. -/
theorem fillRandom_eq_map (sz : Nat) :
    fillRandom sz = (List.range sz).map (refByteFrom SUGGEST_INITIAL) := by
  have hsz : sz = 8 * (sz / 8) + sz % 8 := (Nat.div_add_mod sz 8).symm
  have hr : sz % 8 < 8 := Nat.mod_lt _ (by decide)
  unfold fillRandom
  simp only [wordsToBytes_generate_n, generate_n_snd]
  split
  · conv_rhs => rw [hsz, List.range_add, List.map_append, List.map_map]
    congr 1
    unfold wordBytes
    rw [← List.map_take, List.take_range, Nat.min_eq_left (Nat.le_of_lt hr)]
    apply List.map_congr_left
    intro j hj
    simp only [Function.comp_apply]
    rw [refByteFrom_block _ _ _ (Nat.lt_trans (List.mem_range.mp hj) hr)]
  · rename_i h
    have h0 : sz % 8 = 0 := by simpa using h
    conv_rhs => rw [hsz, h0, Nat.add_zero]

/-! ## Transfer loops: lemmas -/

theorem writeAt_nil (buf : List Nat) (i : Nat) : writeAt buf i [] = buf := by
  simp [writeAt]

theorem writeAt_writeAt (buf a b : List Nat) (i : Nat) (h : i ≤ buf.length) :
    writeAt (writeAt buf i a) (i + a.length) b = writeAt buf i (a ++ b) := by
  unfold writeAt
  have hX : (buf.take i ++ a).length = i + a.length := by
    rw [List.length_append, List.length_take, Nat.min_eq_left h]
  have e1 : List.take (i + a.length) (buf.take i ++ a ++ buf.drop (i + a.length)) =
      buf.take i ++ a := List.take_left' hX
  have e2 : List.drop (i + a.length + b.length)
      (buf.take i ++ a ++ buf.drop (i + a.length)) = buf.drop (i + a.length + b.length) := by
    rw [← hX, List.drop_append, List.drop_drop, hX]
  rw [e1, e2, List.length_append, List.append_assoc, List.append_assoc, List.append_assoc,
    List.append_assoc, Nat.add_assoc]

theorem recvLoop_step (msg : String) (S : Int) (fuel : Nat) (i : Int) (buf : List Nat)
    (w : World) (k : Nat) (hlt : i < S) (hs : w.conn.sched w.conn.calls = Ev.move k) :
    recvLoop msg S (fuel + 1) i buf w =
      recvLoop msg S fuel (i + ((w.conn.rx.take (min k (S - i).toNat)).length : Int))
        (writeAt buf i.toNat (w.conn.rx.take (min k (S - i).toNat)))
        { log := w.log ++ [Op.recv i.toNat (S - i).toNat
            ((w.conn.rx.take (min k (S - i).toNat)).length : Int)],
          conn := { w.conn with rx := w.conn.rx.drop (min k (S - i).toNat),
                                calls := w.conn.calls + 1 } } := by
  have hne : ∀ x : Nat, ((x : Int) = SOCKET_ERROR) = False := by
    intro x; simp only [SOCKET_ERROR, eq_iff_iff, iff_false]; omega
  rw [recvLoop]
  simp only [hlt, if_true, recv, hs, hne, if_false]

theorem recvLoop_done (msg : String) (S : Int) (fuel : Nat) (i : Int) (buf : List Nat)
    (w : World) (h : ¬ i < S) : recvLoop msg S fuel i buf w = some (false, i, buf, w) := by
  cases fuel <;> (rw [recvLoop]; simp only [h, if_false])

theorem recvLoop_run (msg : String) (S : Nat) :
    ∀ (n i fuel : Nat) (buf : List Nat) (w : World),
      i + n = S → n ≤ fuel → buf.length = S → Progress w.conn → n ≤ w.conn.rx.length →
      ∃ w' chunks,
        recvLoop msg S fuel i buf w =
          some (false, (S : Int), writeAt buf i (w.conn.rx.take n), w') ∧
        w'.conn.rx = w.conn.rx.drop n ∧ w'.conn.tx = w.conn.tx ∧
        w'.conn.sched = w.conn.sched ∧ w'.conn.calls = w.conn.calls + chunks.length ∧
        w'.log = w.log ++ xferOps Op.recv S i chunks ∧
        (∀ c ∈ chunks, 0 < c) ∧ chunks.sum = n := by
  intro n
  induction n using Nat.strong_induction_on with
  | _ n ih =>
    intro i fuel buf w hin hf hb hp hrx
    rcases Nat.eq_zero_or_pos n with h0 | hpos
    · subst h0
      have hi : i = S := by omega
      subst hi
      refine ⟨w, [], ?_, by simp, rfl, rfl, by simp, by simp [xferOps], by simp, by simp⟩
      rw [recvLoop_done _ _ _ _ _ _ (by omega)]
      simp [writeAt_nil]
    · obtain ⟨k, hk, hs⟩ := hp w.conn.calls (Nat.le_refl _)
      obtain ⟨f, rfl⟩ : ∃ f, fuel = f + 1 := ⟨fuel - 1, by omega⟩
      have hlt : (i : Int) < (S : Int) := by omega
      have hlen : ((S : Int) - (i : Int)).toNat = n := by omega
      have hm1 : 0 < min k n := by omega
      have hm2 : min k n ≤ n := Nat.min_le_right _ _
      have hgot : (w.conn.rx.take (min k n)).length = min k n := by
        rw [List.length_take]; omega
      rw [recvLoop_step msg S f i buf w k hlt hs, hlen, hgot]
      have hcast : (i : Int) + ((min k n : Nat) : Int) = ((i + min k n : Nat) : Int) := by
        push_cast; rfl
      rw [hcast, Int.toNat_ofNat]
      obtain ⟨w', chunks, heq, hrx', htx', hsch', hcalls', hlog', hpos', hsum'⟩ :=
        ih (n - min k n) (by omega) (i + min k n) f
          (writeAt buf i (w.conn.rx.take (min k n)))
          { log := w.log ++ [Op.recv i n ((min k n : Nat) : Int)],
            conn := { w.conn with rx := w.conn.rx.drop (min k n),
                                  calls := w.conn.calls + 1 } }
          (by omega) (by omega)
          (by simp [writeAt, List.length_take, List.length_drop]; omega)
          (by
            intro j hj
            exact hp j (by simp at hj; omega))
          (by simp [List.length_drop]; omega)
      refine ⟨w', min k n :: chunks, ?_, ?_, htx', hsch', ?_, ?_, ?_, ?_⟩
      · rw [heq]
        have h1 := writeAt_writeAt buf (w.conn.rx.take (min k n))
          ((w.conn.rx.drop (min k n)).take (n - min k n)) i (by omega)
        rw [hgot] at h1
        simp only at h1 ⊢
        rw [h1, ← List.take_add, Nat.add_sub_cancel' hm2]
      · rw [hrx']; simp only [List.drop_drop]; congr 1; omega
      · rw [hcalls']; simp only [List.length_cons]; omega
      · rw [hlog']
        have hS : S - i = n := by omega
        simp [xferOps, hS, List.append_assoc]
      · intro c hc
        rcases List.mem_cons.mp hc with rfl | hc
        · exact hm1
        · exact hpos' c hc
      · rw [List.sum_cons, hsum']; omega

theorem sendLoop_step (msg : String) (S : Int) (buf : List Nat) (fuel : Nat) (i : Int)
    (w : World) (k : Nat) (hlt : i < S) (hs : w.conn.sched w.conn.calls = Ev.move k) :
    sendLoop msg S buf (fuel + 1) i w =
      sendLoop msg S buf fuel
        (i + ((((buf.drop i.toNat).take (S - i).toNat).take k).length : Int))
        { log := w.log ++ [Op.send i.toNat (S - i).toNat
            ((((buf.drop i.toNat).take (S - i).toNat).take k).length : Int)],
          conn := { w.conn with
                    tx := w.conn.tx ++ ((buf.drop i.toNat).take (S - i).toNat).take k,
                    calls := w.conn.calls + 1 } } := by
  have hne : ∀ x : Nat, ((x : Int) = SOCKET_ERROR) = False := by
    intro x; simp only [SOCKET_ERROR, eq_iff_iff, iff_false]; omega
  rw [sendLoop]
  simp only [hlt, if_true, send, hs, hne, if_false]

theorem sendLoop_done (msg : String) (S : Int) (buf : List Nat) (fuel : Nat) (i : Int)
    (w : World) (h : ¬ i < S) : sendLoop msg S buf fuel i w = some (false, i, w) := by
  cases fuel <;> (rw [sendLoop]; simp only [h, if_false])

theorem sendLoop_run (msg : String) (S : Nat) (buf : List Nat) :
    ∀ (n i fuel : Nat) (w : World),
      i + n = S → n ≤ fuel → buf.length = S → Progress w.conn →
      ∃ w' chunks,
        sendLoop msg S buf fuel i w = some (false, (S : Int), w') ∧
        w'.conn.tx = w.conn.tx ++ buf.drop i ∧ w'.conn.rx = w.conn.rx ∧
        w'.conn.sched = w.conn.sched ∧ w'.conn.calls = w.conn.calls + chunks.length ∧
        w'.log = w.log ++ xferOps Op.send S i chunks ∧
        (∀ c ∈ chunks, 0 < c) ∧ chunks.sum = n := by
  intro n
  induction n using Nat.strong_induction_on with
  | _ n ih =>
    intro i fuel w hin hf hb hp
    rcases Nat.eq_zero_or_pos n with h0 | hpos
    · subst h0
      have hi : i = S := by omega
      subst hi
      refine ⟨w, [], ?_, ?_, rfl, rfl, by simp, by simp [xferOps], by simp, by simp⟩
      · rw [sendLoop_done _ _ _ _ _ _ (by omega)]
      · rw [List.drop_of_length_le (by omega)]; simp
    · obtain ⟨k, hk, hs⟩ := hp w.conn.calls (Nat.le_refl _)
      obtain ⟨f, rfl⟩ : ∃ f, fuel = f + 1 := ⟨fuel - 1, by omega⟩
      have hlt : (i : Int) < (S : Int) := by omega
      have hlen : ((S : Int) - (i : Int)).toNat = n := by omega
      have hm1 : 0 < min k n := by omega
      have hm2 : min k n ≤ n := Nat.min_le_right _ _
      have hdl : (buf.drop i).length = n := by rw [List.length_drop]; omega
      have hput : ((buf.drop i).take n).take k = (buf.drop i).take (min k n) := by
        rw [List.take_take]
      have hgot : ((buf.drop i).take (min k n)).length = min k n := by
        rw [List.length_take]; omega
      rw [sendLoop_step msg S buf f i w k hlt hs, hlen, Int.toNat_ofNat, hput, hgot]
      have hcast : (i : Int) + ((min k n : Nat) : Int) = ((i + min k n : Nat) : Int) := by
        push_cast; rfl
      rw [hcast]
      obtain ⟨w', chunks, heq, htx', hrx', hsch', hcalls', hlog', hpos', hsum'⟩ :=
        ih (n - min k n) (by omega) (i + min k n) f
          { log := w.log ++ [Op.send i n ((min k n : Nat) : Int)],
            conn := { w.conn with tx := w.conn.tx ++ (buf.drop i).take (min k n),
                                  calls := w.conn.calls + 1 } }
          (by omega) (by omega) hb
          (by
            intro j hj
            exact hp j (by simp at hj; omega))
      refine ⟨w', min k n :: chunks, heq, ?_, hrx', hsch', ?_, ?_, ?_, ?_⟩
      · rw [htx']
        simp only [List.append_assoc]
        congr 1
        rw [← List.drop_drop, List.take_append_drop]
      · rw [hcalls']; simp only [List.length_cons]; omega
      · rw [hlog']
        have hS : S - i = n := by omega
        simp [xferOps, hS, List.append_assoc]
      · intro c hc
        rcases List.mem_cons.mp hc with rfl | hc
        · exact hm1
        · exact hpos' c hc
      · rw [List.sum_cons, hsum']; omega

theorem xferOps_within (mk : Nat → Nat → Int → Op) (S : Nat)
    (hmk : ∀ off len rd, Op.within S (mk off len rd) ↔
      (off + len ≤ S ∧ 0 < rd ∧ rd ≤ (len : Int))) :
    ∀ (chunks : List Nat) (i : Nat), i + chunks.sum ≤ S → (∀ c ∈ chunks, 0 < c) →
      ∀ op ∈ xferOps mk S i chunks, Op.within S op := by
  intro chunks
  induction chunks with
  | nil => intro i _ _ op hop; simp [xferOps] at hop
  | cons c cs ih =>
    intro i hsum hpos op hop
    rw [List.sum_cons] at hsum
    simp only [xferOps, List.mem_cons] at hop
    rcases hop with rfl | hop
    · rw [hmk]
      have hc := hpos c (List.mem_cons_self _ _)
      refine ⟨by omega, by omega, by omega⟩
    · exact ih (i + c) (by omega) (fun c' hc' => hpos c' (List.mem_cons_of_mem _ hc')) op hop

theorem writeAt_zero_full (buf data : List Nat) (h : buf.length = data.length) :
    writeAt buf 0 data = data := by
  unfold writeAt
  rw [List.take_zero, List.nil_append, Nat.zero_add, List.drop_of_length_le (by omega),
    List.append_nil]

theorem recvLoop_all (msg : String) (S fuel : Nat) (buf : List Nat) (w : World)
    (hf : S ≤ fuel) (hb : buf.length = S) (hp : Progress w.conn)
    (hrx : S ≤ w.conn.rx.length) :
    RecvAllOk S w (recvLoop msg S fuel 0 buf w) := by
  obtain ⟨w', chunks, heq, hrx', htx', _, _, hlog', hpos', hsum'⟩ :=
    recvLoop_run msg S S 0 fuel buf w (by omega) hf hb hp hrx
  refine ⟨w', chunks, ?_, hrx', htx', hlog', hpos', hsum', ?_⟩
  · have h0 : ((0 : Nat) : Int) = 0 := rfl
    rw [h0] at heq
    rw [heq, writeAt_zero_full]
    rw [hb, List.length_take]; omega
  · exact xferOps_within Op.recv S (fun _ _ _ => Iff.rfl) chunks 0 (by omega) hpos'

theorem sendLoop_all (msg : String) (S fuel : Nat) (buf : List Nat) (w : World)
    (hf : S ≤ fuel) (hb : buf.length = S) (hp : Progress w.conn) :
    SendAllOk S buf w (sendLoop msg S buf fuel 0 w) := by
  obtain ⟨w', chunks, heq, htx', hrx', _, _, hlog', hpos', hsum'⟩ :=
    sendLoop_run msg S buf S 0 fuel w (by omega) hf hb hp
  refine ⟨w', chunks, ?_, ?_, hrx', hlog', hpos', hsum', ?_⟩
  · have h0 : ((0 : Nat) : Int) = 0 := rfl
    rw [h0] at heq
    exact heq
  · rw [htx', List.drop_zero]
  · exact xferOps_within Op.send S (fun _ _ _ => Iff.rfl) chunks 0 (by omega) hpos'

/-! ## Echo cycle: lemmas -/

theorem Progress.next {c c' : Conn} (hp : Progress c) (hs : c'.sched = c.sched)
    (hc : c.calls ≤ c'.calls) : Progress c' := by
  intro j hj
  rw [hs]
  exact hp j (Nat.le_trans hc hj)

theorem recv_one (c : Conn) (b : Nat) (rest : List Nat) (hp : Progress c)
    (hrx : c.rx = b :: rest) :
    recv c 1 = (1, [b], { c with rx := rest, calls := c.calls + 1 }) := by
  obtain ⟨k, hk, hs⟩ := hp c.calls (Nat.le_refl _)
  have hmin : min k 1 = 1 := by omega
  simp [recv, hs, hmin, hrx]

theorem send_one (c : Conn) (x : Nat) (hp : Progress c) :
    send c [x] = (1, { c with tx := c.tx ++ [x], calls := c.calls + 1 }) := by
  obtain ⟨k, hk, hs⟩ := hp c.calls (Nat.le_refl _)
  obtain ⟨k', rfl⟩ : ∃ k', k = k' + 1 := ⟨k - 1, by omega⟩
  simp [send, hs]

theorem serverCycle_echo (S fuel : Nat) (P rest recvBuff : List Nat) (w : World)
    (hfuel : S ≤ fuel) (hP : P.length = S) (hbuf : recvBuff.length = S)
    (hp : Progress w.conn) (hrx : w.conn.rx = 1 :: (P ++ rest)) :
    ∃ w', serverCycle S fuel recvBuff w = some (false, P, w') ∧
      w'.conn.tx = w.conn.tx ++ 1 :: P ∧ w'.conn.rx = rest ∧
      w'.conn.sched = w.conn.sched ∧ w.conn.calls ≤ w'.conn.calls := by
  have hr := recv_one w.conn 1 (P ++ rest) hp hrx
  unfold serverCycle
  simp only [World.emit, hr]
  have h0 : ((0 : Nat) : Int) = 0 := rfl
  have htake : (P ++ rest).take S = P := by rw [← hP]; exact List.take_left _ _
  have hdrop : (P ++ rest).drop S = rest := by rw [← hP]; exact List.drop_left _ _
  obtain ⟨w3, ch, heq, hrx3, htx3, hs3, hc3, -, -, -⟩ :=
    recvLoop_run "Error receiving data from client." S S 0 fuel recvBuff
      { log := w.log ++ [Op.puts "Processing data from client ..."] ++ [Op.recv 0 1 1],
        conn := { rx := P ++ rest, tx := w.conn.tx, sched := w.conn.sched,
                  calls := w.conn.calls + 1 } }
      (by omega) hfuel hbuf
      (Progress.next hp rfl (Nat.le_succ _))
      (by simp only [List.length_append]; omega)
  rw [h0] at heq
  simp only [htake, hdrop] at heq hrx3
  rw [writeAt_zero_full recvBuff P (by omega)] at heq
  have hp3 : Progress w3.conn := Progress.next hp hs3 (by rw [hc3]; simp only; omega)
  have hsend := send_one w3.conn 1 hp3
  obtain ⟨w5, ch5, heq5, htx5, hrx5, hs5, hc5, -, -, -⟩ :=
    sendLoop_run "Error sending data to client." S P S 0 fuel
      { log := w3.log ++ [Op.send 0 1 1],
        conn := { w3.conn with tx := w3.conn.tx ++ [1], calls := w3.conn.calls + 1 } }
      (by omega) hfuel hP
      (Progress.next hp3 rfl (Nat.le_succ _))
  rw [h0] at heq5
  refine ⟨w5, ?_, ?_, ?_, ?_, ?_⟩
  · simp only [ne_eq, not_true_eq_false, if_false, List.headD_cons, if_true, heq, hsend, heq5]
  · rw [htx5, List.drop_zero]; simp only [htx3, List.append_assoc, List.singleton_append]
  · rw [hrx5]; exact hrx3
  · rw [hs5]; exact hs3
  · rw [hc5, hc3]; simp only; omega

theorem memcmp_eq_zero_iff : ∀ (n : Nat) (a b : List Nat), a.length = n → b.length = n →
    (memcmp a b n = 0 ↔ a = b) := by
  intro n
  induction n with
  | zero =>
    intro a b ha hb
    rw [List.length_eq_zero.mp ha, List.length_eq_zero.mp hb]
    simp [memcmp]
  | succ n ih =>
    intro a b ha hb
    obtain ⟨x, xs, rfl⟩ := List.exists_cons_of_length_eq_add_one ha
    obtain ⟨y, ys, rfl⟩ := List.exists_cons_of_length_eq_add_one hb
    simp only [List.length_cons, Nat.add_right_cancel_iff] at ha hb
    by_cases hxy : x = y
    · subst hxy
      simp [memcmp, ih xs ys ha hb]
    · by_cases hlt : x < y <;> simp [memcmp, hxy, hlt]

theorem clientSend_ok (S fuel : Nat) (ref : List Nat) (w : World)
    (hfuel : S ≤ fuel) (href : ref.length = S) (hp : Progress w.conn) :
    ∃ w', clientSend S ref fuel w = some (false, List.replicate S 0, w') ∧
      w'.conn.tx = w.conn.tx ++ 1 :: ref ∧ w'.conn.rx = w.conn.rx ∧
      w'.conn.sched = w.conn.sched ∧ w.conn.calls ≤ w'.conn.calls ∧
      ∃ chunks, w'.log = w.log ++ [Op.send 0 1 1, Op.puts "Sending ..."] ++
        xferOps Op.send S 0 chunks := by
  have h0 : ((0 : Nat) : Int) = 0 := rfl
  have hsend := send_one w.conn 1 hp
  obtain ⟨w5, ch5, heq5, htx5, hrx5, hs5, hc5, hlog5, -, -⟩ :=
    sendLoop_run "Error sending data to server" S ref S 0 fuel
      { log := w.log ++ [Op.send 0 1 1] ++ [Op.puts "Sending ..."],
        conn := { w.conn with tx := w.conn.tx ++ [1], calls := w.conn.calls + 1 } }
      (by omega) hfuel href
      (Progress.next hp rfl (Nat.le_succ _))
  rw [h0] at heq5
  refine ⟨w5, ?_, ?_, ?_, ?_, ?_, ch5, ?_⟩
  · unfold clientSend
    simp only [World.emit, hsend, ne_eq, not_true_eq_false, if_false, heq5, Int.toNat_ofNat]
  · rw [htx5, List.drop_zero]; simp only [List.append_assoc, List.singleton_append]
  · rw [hrx5]
  · rw [hs5]
  · rw [hc5]; simp only; omega
  · rw [hlog5]; simp only [List.append_assoc, List.singleton_append]

theorem clientRecv_ok (S fuel : Nat) (ref recvBuf R rest : List Nat) (a : Nat) (w : World)
    (hfuel : S ≤ fuel) (href : ref.length = S) (hR : R.length = S)
    (hbuf : recvBuf.length = S) (hp : Progress w.conn) (hrx : w.conn.rx = a :: (R ++ rest)) :
    ∃ w1 : World, w1.conn.tx = w.conn.tx ∧ w1.conn.rx = rest ∧
      w1.conn.sched = w.conn.sched ∧ w.conn.calls ≤ w1.conn.calls ∧
      clientRecv S ref fuel recvBuf w =
        some (decide (R ≠ ref), R,
          { log := w1.log ++ compareOps (decide (R = ref)), conn := w1.conn }) ∧
      ∃ chunks, w1.log = w.log ++ [Op.recv 0 1 1, Op.puts "Receiving ..."] ++
        xferOps Op.recv S 0 chunks := by
  have h0 : ((0 : Nat) : Int) = 0 := rfl
  have hr := recv_one w.conn a (R ++ rest) hp hrx
  have htake : (R ++ rest).take S = R := by rw [← hR]; exact List.take_left _ _
  have hdrop : (R ++ rest).drop S = rest := by rw [← hR]; exact List.drop_left _ _
  obtain ⟨w3, ch, heq, hrx3, htx3, hs3, hc3, hlog3, -, -⟩ :=
    recvLoop_run "Error receiving data from server" S S 0 fuel recvBuf
      { log := w.log ++ [Op.recv 0 1 1] ++ [Op.puts "Receiving ..."],
        conn := { rx := R ++ rest, tx := w.conn.tx, sched := w.conn.sched,
                  calls := w.conn.calls + 1 } }
      (by omega) hfuel hbuf
      (Progress.next hp rfl (Nat.le_succ _))
      (by simp only [List.length_append]; omega)
  rw [h0] at heq
  simp only [htake, hdrop] at heq hrx3
  rw [writeAt_zero_full recvBuf R (by omega)] at heq
  refine ⟨w3, htx3, hrx3, hs3, by rw [hc3]; simp only; omega, ?_,
    ch, by rw [hlog3]; simp only [List.append_assoc, List.singleton_append]⟩
  unfold clientRecv
  simp only [World.emit, hr, ne_eq, not_true_eq_false, if_false, heq, Int.toNat_ofNat]
  by_cases hEq : R = ref
  · subst hEq
    have hm : memcmp R R S = 0 := (memcmp_eq_zero_iff S R R hR hR).mpr rfl
    simp [hm, compareOps]
  · have hm : ¬ memcmp R ref S = 0 := fun h => hEq ((memcmp_eq_zero_iff S R ref hR href).mp h)
    simp [hm, hEq, compareOps]

/-! ## Logs only grow -/

theorem recvLoop_log (msg : String) (S : Int) :
    ∀ (fuel : Nat) (i : Int) (buf : List Nat) (w : World) (r : Bool × Int × List Nat × World),
      recvLoop msg S fuel i buf w = some r → w.log <+: r.2.2.2.log := by
  intro fuel
  induction fuel with
  | zero =>
    intro i buf w r h
    rw [recvLoop] at h
    split at h
    · simp at h
    · simp only [Option.some.injEq] at h
      subst h
      exact List.prefix_refl _
  | succ f ih =>
    intro i buf w r h
    rw [recvLoop] at h
    split at h
    · simp only at h
      split at h
      · simp only [Option.some.injEq] at h
        subst h
        simp only [World.emit, List.append_assoc]
        exact List.prefix_append _ _
      · exact List.IsPrefix.trans (List.prefix_append _ _) (ih _ _ _ _ h)
    · simp only [Option.some.injEq] at h
      subst h
      exact List.prefix_refl _

theorem sendLoop_log (msg : String) (S : Int) (buf : List Nat) :
    ∀ (fuel : Nat) (i : Int) (w : World) (r : Bool × Int × World),
      sendLoop msg S buf fuel i w = some r → w.log <+: r.2.2.log := by
  intro fuel
  induction fuel with
  | zero =>
    intro i w r h
    rw [sendLoop] at h
    split at h
    · simp at h
    · simp only [Option.some.injEq] at h
      subst h
      exact List.prefix_refl _
  | succ f ih =>
    intro i w r h
    rw [sendLoop] at h
    split at h
    · simp only at h
      split at h
      · simp only [Option.some.injEq] at h
        subst h
        simp only [World.emit, List.append_assoc]
        exact List.prefix_append _ _
      · exact List.IsPrefix.trans (List.prefix_append _ _) (ih _ _ _ h)
    · simp only [Option.some.injEq] at h
      subst h
      exact List.prefix_refl _

theorem prefix_app2 {α : Type} (l a b : List α) : l <+: l ++ a ++ b :=
  (List.prefix_append l a).trans (List.prefix_append _ b)

theorem prefix_app3 {α : Type} (l a b c : List α) : l <+: l ++ a ++ b ++ c :=
  (prefix_app2 l a b).trans (List.prefix_append _ c)

theorem serverCycle_log (S : Int) (fuel : Nat) (rb : List Nat) (w : World)
    (r : Bool × List Nat × World) (h : serverCycle S fuel rb w = some r) :
    w.log <+: r.2.2.log := by
  unfold serverCycle at h
  simp only [World.emit] at h
  split at h
  · simp only [Option.some.injEq] at h
    subst h
    exact prefix_app3 _ _ _ _
  · split at h
    · split at h
      · simp at h
      · rename_i hrl
        simp only [Option.some.injEq] at h
        subst h
        exact (prefix_app2 _ _ _).trans (recvLoop_log _ _ _ _ _ _ _ hrl)
      · rename_i hrl
        have h1 := (prefix_app2 _ _ _).trans (recvLoop_log _ _ _ _ _ _ _ hrl)
        simp only at h1
        split at h
        · simp only [Option.some.injEq] at h
          subst h
          exact h1.trans (prefix_app2 _ _ _)
        · split at h
          · simp at h
          · rename_i hsl
            simp only [Option.some.injEq] at h
            subst h
            have h2 := sendLoop_log _ _ _ _ _ _ _ hsl
            simp only at h2
            exact h1.trans ((List.prefix_append _ _).trans h2)
    · split at h
      · simp only [Option.some.injEq] at h
        subst h
        exact prefix_app3 _ _ _ _
      · simp only [Option.some.injEq] at h
        subst h
        exact prefix_app3 _ _ _ _

theorem sessionLoop_log (S : Int) :
    ∀ (fuel : Nat) (rb : List Nat) (w r : World),
      sessionLoop S fuel rb w = some r → w.log <+: r.log := by
  intro fuel
  induction fuel with
  | zero => intro rb w r h; simp [sessionLoop] at h
  | succ f ih =>
    intro rb w r h
    rw [sessionLoop] at h
    split at h
    · simp at h
    · rename_i hc
      simp only [Option.some.injEq] at h
      subst h
      exact serverCycle_log _ _ _ _ _ hc
    · rename_i hc
      exact (serverCycle_log _ _ _ _ _ hc).trans (ih _ _ _ h)

/-- Every run of the accept loop begins by announcing that it waits and by
calling `accept`. -/
theorem command_server_log (fuel : Nat) :
    ∀ (backlog : List (Option Conn)) (w r : World),
      command_server fuel backlog w = some r →
      w.log ++ [Op.puts "Waiting for connection ...", Op.accept] <+: r.log := by
  intro backlog
  induction backlog with
  | nil =>
    intro w r h
    simp only [command_server, World.emit, Option.some.injEq] at h
    subst h
    simp
  | cons a backlog ih =>
    intro w r h
    have hstart : ∀ l : List Op, l ++ [Op.puts "Waiting for connection ...", Op.accept] =
        l ++ [Op.puts "Waiting for connection ..."] ++ [Op.accept] := by
      intro l; simp
    cases a with
    | none =>
      simp only [command_server, World.emit] at h
      have h1 := ih _ _ h
      simp only at h1
      rw [hstart]
      exact (prefix_app2 _ _ _).trans h1
    | some c =>
      simp only [command_server, World.emit] at h
      rw [hstart]
      split at h
      · have h1 := ih _ _ h
        simp only at h1
        exact (List.prefix_append _ _).trans ((prefix_app3 _ _ _ _).trans h1)
      · split at h
        · have h1 := ih _ _ h
          simp only at h1
          exact (List.prefix_append _ _).trans ((prefix_app3 _ _ _ _).trans h1)
        · split at h
          · simp at h
          · rename_i hs
            have h1 := ih _ _ h
            have h2 := sessionLoop_log _ _ _ _ _ hs
            simp only at h1 h2
            exact (prefix_app3 _ _ _ _).trans (h2.trans ((prefix_app2 _ _ _).trans h1))

/-! ## Sessions: lemmas -/

theorem recv_tx (c : Conn) (len : Nat) : (recv c len).2.2.tx = c.tx := by
  unfold recv; split <;> rfl

theorem recv_calls (c : Conn) (len : Nat) : (recv c len).2.2.calls = c.calls + 1 := by
  unfold recv; split <;> rfl

/-- A connection with a valid size header puts the server into the
AwaitingCommand state of a fresh session. -/
theorem command_server_session (fuel : Nat) (c : Conn) (backlog : List (Option Conn))
    (w : World) (h4 : (recv c 4).1 = 4) (hsz : 0 < readInt (recv c 4).2.1) :
    command_server fuel (some c :: backlog) w =
      resumeSession (readInt (recv c 4).2.1) fuel fuel
        (List.replicate (readInt (recv c 4).2.1).toNat 0)
        { log := w.log ++ [Op.puts "Waiting for connection ...", Op.accept, Op.recv 0 4 4,
            Op.print "Client requested buffer size of \x7b\x7d. Allocating ...",
            Op.alloc (readInt (recv c 4).2.1).toNat],
          conn := (recv c 4).2.2 } backlog := by
  have hsz' : ¬ readInt (recv c 4).2.1 ≤ 0 := by omega
  simp only [command_server, World.emit, h4, ne_eq, not_true_eq_false, if_false, hsz',
    resumeSession, List.append_assoc, List.singleton_append, List.cons_append, List.nil_append]

/-- A cycle that ends with `stop == false` leaves the server in the
AwaitingCommand state again. -/
theorem resumeSession_cycle (buffsz : Int) (sfuel fuel : Nat) (recvBuff rb : List Nat)
    (w w' : World) (backlog : List (Option Conn))
    (h : serverCycle buffsz sfuel recvBuff w = some (false, rb, w')) :
    resumeSession buffsz (sfuel + 1) fuel recvBuff w backlog =
      resumeSession buffsz sfuel fuel rb w' backlog := by
  simp only [resumeSession, sessionLoop, h]

/-- Once the peer has disconnected with bytes still missing, the receive loop
never leaves: every further `recv` returns 0 and `i` stays where it is. -/
theorem recvLoop_eof (msg : String) (S : Int) :
    ∀ (fuel : Nat) (i : Int) (buf : List Nat) (w : World),
      i < S → w.conn.rx = [] → (∀ j, ∃ k, w.conn.sched j = Ev.move k) →
      recvLoop msg S fuel i buf w = none := by
  intro fuel
  induction fuel with
  | zero =>
    intro i buf w hlt _ _
    rw [recvLoop]
    simp only [hlt, if_true]
  | succ f ih =>
    intro i buf w hlt hrx hs
    obtain ⟨k, hk⟩ := hs w.conn.calls
    rw [recvLoop_step msg S f i buf w k hlt hk]
    apply ih
    · simp only [hrx, List.take_nil, List.length_nil, Nat.cast_zero, Int.add_zero]
      exact hlt
    · simp only [hrx, List.drop_nil]
    · intro j
      exact hs j

theorem connectSocket_ok (env : Env) (obj : SockType × Bool) (args : SockArg) (w w1 : World)
    (rc : Int) (h : connectSocket env obj args w = Except.ok (rc, w1)) :
    w1 = w.emit (Op.connect rc) := by
  unfold connectSocket at h
  repeat' split at h
  all_goals first
    | (simp at h; done)
    | (simp only [Except.ok.injEq, Prod.mk.injEq] at h; rw [← h.2, ← h.1])

/-! ## Reference count: lemmas -/

theorem cnt_set (p : Nat → Bool) (d : Nat) :
    ∀ (l : List Nat) (i v : Nat), i < l.length →
      ((l.set i v).filter p).length + (if p (l.getD i d) then 1 else 0) =
        (l.filter p).length + (if p v then 1 else 0) := by
  intro l
  induction l with
  | nil => intro i v h; simp at h
  | cons x xs ih =>
    intro i v h
    cases i with
    | zero =>
      by_cases hx : p x = true <;> by_cases hv : p v = true <;> simp [List.filter_cons, hx, hv]
    | succ j =>
      have hj : j < xs.length := by simpa using h
      have := ih j v hj
      by_cases hx : p x = true <;> simp [List.filter_cons, hx] at this ⊢ <;> omega

theorem cnt_eraseIdx (p : Nat → Bool) (d : Nat) :
    ∀ (l : List Nat) (i : Nat), i < l.length →
      ((l.eraseIdx i).filter p).length + (if p (l.getD i d) then 1 else 0) =
        (l.filter p).length := by
  intro l
  induction l with
  | nil => intro i h; simp at h
  | cons x xs ih =>
    intro i h
    cases i with
    | zero =>
      by_cases hx : p x = true <;> simp [List.filter_cons, hx]
    | succ j =>
      have hj : j < xs.length := by simpa using h
      have := ih j hj
      by_cases hx : p x = true <;> simp [List.filter_cons, hx] at this ⊢ <;> omega

theorem liveValid_append (l : List Nat) (s : Nat) :
    ((l ++ [s]).filter (fun s => s ≠ INVALID_SOCKET)).length =
      (l.filter (fun s => s ≠ INVALID_SOCKET)).length +
        (if s ≠ INVALID_SOCKET then 1 else 0) := by
  by_cases hs : s = INVALID_SOCKET <;> simp [List.filter_append, List.filter_cons, hs]

theorem liveValid_set (l : List Nat) (i v : Nat) (h : i < l.length) :
    ((l.set i v).filter (fun s => s ≠ INVALID_SOCKET)).length +
        (if l.getD i INVALID_SOCKET ≠ INVALID_SOCKET then 1 else 0) =
      (l.filter (fun s => s ≠ INVALID_SOCKET)).length +
        (if v ≠ INVALID_SOCKET then 1 else 0) := by
  have := cnt_set (fun s => decide (s ≠ INVALID_SOCKET)) INVALID_SOCKET l i v h
  simpa only [decide_eq_true_eq] using this

theorem liveValid_eraseIdx (l : List Nat) (i : Nat) (h : i < l.length) :
    ((l.eraseIdx i).filter (fun s => s ≠ INVALID_SOCKET)).length +
        (if l.getD i INVALID_SOCKET ≠ INVALID_SOCKET then 1 else 0) =
      (l.filter (fun s => s ≠ INVALID_SOCKET)).length := by
  have := cnt_eraseIdx (fun s => decide (s ≠ INVALID_SOCKET)) INVALID_SOCKET l i h
  simpa only [decide_eq_true_eq] using this

theorem liveValid_le (g : Wsa) : liveValid g ≤ g.socks.length :=
  List.length_filter_le _ _

theorem getD_set_src (l : List Nat) (dst src d : Nat) (hd : dst < l.length) :
    (l.set dst (l.getD src d)).getD src d = l.getD src d := by
  by_cases h : dst = src
  · subst h
    simp [List.getD_eq_getElem?_getD, List.getElem?_set, hd]
  · simp [List.getD_eq_getElem?_getD, List.getElem?_set, h]

/-- A move assignment onto an object without a valid handle keeps the number
of live valid handles. -/
theorem liveValid_moveAssign (g : Wsa) (dst src : Nat)
    (ht : g.socks.getD dst INVALID_SOCKET = INVALID_SOCKET) :
    liveValid (Socket_moveAssign dst src g) = liveValid g := by
  unfold Socket_moveAssign
  split
  · rename_i h
    have h1 := liveValid_set g.socks dst (g.socks.getD src INVALID_SOCKET) h.1
    have h2 := liveValid_set (g.socks.set dst (g.socks.getD src INVALID_SOCKET)) src
      INVALID_SOCKET (by simpa using h.2)
    rw [getD_set_src _ _ _ _ h.1] at h2
    have e1 : (if g.socks.getD dst INVALID_SOCKET ≠ INVALID_SOCKET then 1 else 0) = 0 :=
      if_neg (fun hne => hne ht)
    have e2 : (if INVALID_SOCKET ≠ INVALID_SOCKET then 1 else 0) = 0 :=
      if_neg (fun hne => hne rfl)
    rw [e1] at h1
    rw [e2] at h2
    unfold liveValid
    simp only
    omega
  · rfl

theorem refcount_ctor (g : Wsa) (ok : Bool) (s : Nat) (hinv : RefcountExact g)
    (hsmall : g.socks.length + 1 < 2 ^ 64) : RefcountExact (Socket_ctor ok s g) := by
  obtain ⟨h1, h2⟩ := hinv
  have hle := liveValid_le g
  have happ := liveValid_append g.socks s
  unfold liveValid at h1 h2 hle
  simp only [ne_eq] at h1 h2 hle happ
  unfold Socket_ctor wsaInit
  by_cases hv : g.wsadataValid_ = false
  · by_cases hok : ok = false
    · simp only [hv, hok, if_true]
      exact ⟨h1, h2⟩
    · have hok' : ok = true := by simpa using hok
      simp only [hv, hok', if_true]
      by_cases hs : s = INVALID_SOCKET
      · have e : (if ¬ s = INVALID_SOCKET then 1 else 0) = 0 := if_neg (fun hne => hne hs)
        rw [e] at happ
        simp only [hs, RefcountExact, liveValid, ne_eq, not_true_eq_false, if_false,
          Bool.true_eq_false, implies_true, and_true]
        rw [hs] at happ
        omega
      · have e : (if ¬ s = INVALID_SOCKET then 1 else 0) = 1 := if_pos hs
        rw [e] at happ
        simp only [hs, RefcountExact, liveValid, ne_eq, not_false_eq_true, if_true,
          Bool.true_eq_false, if_false, implies_true, and_true]
        rw [happ, Nat.mod_eq_of_lt (by omega)]
        omega
  · have hv' : g.wsadataValid_ = true := by simpa using hv
    simp only [hv', Bool.true_eq_false, if_false]
    by_cases hs : s = INVALID_SOCKET
    · have e : (if ¬ s = INVALID_SOCKET then 1 else 0) = 0 := if_neg (fun hne => hne hs)
      rw [e] at happ
      simp only [hs, RefcountExact, liveValid, ne_eq, not_true_eq_false, if_false,
        implies_true, and_true]
      rw [hs] at happ
      omega
    · have e : (if ¬ s = INVALID_SOCKET then 1 else 0) = 1 := if_pos hs
      rw [e] at happ
      simp only [hs, RefcountExact, liveValid, ne_eq, not_false_eq_true, if_true,
        implies_true, and_true]
      rw [happ, Nat.mod_eq_of_lt (by omega)]
      omega

theorem refcount_default (g : Wsa) (hinv : RefcountExact g) :
    RefcountExact (Socket_default g) := by
  obtain ⟨h1, h2⟩ := hinv
  have happ := liveValid_append g.socks INVALID_SOCKET
  have e : (if INVALID_SOCKET ≠ INVALID_SOCKET then 1 else 0) = 0 := if_neg (fun hne => hne rfl)
  rw [e, Nat.add_zero] at happ
  unfold liveValid at h1 h2
  unfold Socket_default RefcountExact liveValid
  simp only
  rw [happ]
  exact ⟨h1, h2⟩

theorem refcount_moveAssign (g : Wsa) (dst src : Nat) (hinv : RefcountExact g)
    (ht : g.socks.getD dst INVALID_SOCKET = INVALID_SOCKET) :
    RefcountExact (Socket_moveAssign dst src g) := by
  have hlv := liveValid_moveAssign g dst src ht
  have hrc : (Socket_moveAssign dst src g).wsadataRefcount_ = g.wsadataRefcount_ := by
    unfold Socket_moveAssign; split <;> rfl
  have hvd : (Socket_moveAssign dst src g).wsadataValid_ = g.wsadataValid_ := by
    unfold Socket_moveAssign; split <;> rfl
  unfold RefcountExact
  rw [hlv, hrc, hvd]
  exact hinv

theorem refcount_moveCtor (g : Wsa) (src : Nat) (hinv : RefcountExact g) :
    RefcountExact (Socket_moveCtor src g) := by
  unfold Socket_moveCtor
  split
  · apply refcount_moveAssign
    · exact refcount_default g hinv
    · simp [List.getD_eq_getElem?_getD]
  · exact hinv

theorem refcount_dtor (g : Wsa) (idx : Nat) (hinv : RefcountExact g)
    (hsmall : g.socks.length + 1 < 2 ^ 64) : RefcountExact (Socket_dtor idx g) := by
  obtain ⟨h1, h2⟩ := hinv
  have hle := liveValid_le g
  unfold liveValid at h1 h2 hle
  unfold Socket_dtor
  by_cases hidx : idx < g.socks.length
  · rw [if_pos hidx]
    have her := liveValid_eraseIdx g.socks idx hidx
    by_cases hs : g.socks.getD idx INVALID_SOCKET = INVALID_SOCKET
    · have e : (if g.socks.getD idx INVALID_SOCKET ≠ INVALID_SOCKET then 1 else 0) = 0 :=
        if_neg (fun hne => hne hs)
      rw [e, Nat.add_zero] at her
      simp only [hs, ne_eq, not_true_eq_false, if_false, RefcountExact, liveValid]
      simp only [ne_eq] at her h1 h2
      rw [her]
      exact ⟨h1, h2⟩
    · have e : (if g.socks.getD idx INVALID_SOCKET ≠ INVALID_SOCKET then 1 else 0) = 1 :=
        if_pos hs
      rw [e] at her
      simp only [ne_eq] at her h1 h2 hle
      have hrc : (g.wsadataRefcount_ + 2 ^ 64 - 1) % 2 ^ 64 = g.wsadataRefcount_ - 1 := by
        have hpos : 1 ≤ g.wsadataRefcount_ := by omega
        have : g.wsadataRefcount_ + 2 ^ 64 - 1 = (g.wsadataRefcount_ - 1) + 2 ^ 64 := by omega
        rw [this, Nat.add_mod_right, Nat.mod_eq_of_lt (by omega)]
      simp only [hs, ne_eq, not_false_eq_true, if_true, hrc]
      by_cases h0 : g.wsadataRefcount_ - 1 = 0
      · simp only [h0, if_true, RefcountExact, liveValid, ne_eq]
        constructor
        · omega
        · intro hpos; omega
      · simp only [h0, if_false, RefcountExact, liveValid, ne_eq]
        constructor
        · omega
        · intro _; exact h2 (by omega)
  · rw [if_neg hidx]
    exact ⟨h1, h2⟩

/-- Every event other than a move assignment onto a socket that holds a valid
handle keeps the reference count exact. -/
theorem refcount_step (g : Wsa) (op : SockOp) (hinv : RefcountExact g)
    (hsmall : g.socks.length + 1 < 2 ^ 64) (ht : op.tame g) : RefcountExact (op.run g) := by
  cases op with
  | ctor ok s => exact refcount_ctor g ok s hinv hsmall
  | dflt => exact refcount_default g hinv
  | moveCtor src => exact refcount_moveCtor g src hinv
  | moveAssign dst src => exact refcount_moveAssign g dst src hinv ht
  | dtor idx => exact refcount_dtor g idx hinv hsmall

/-- Along every tame run from program start the reference count equals the
number of live sockets with a valid handle. -/
theorem refcount_exact_run : ∀ (ops : List SockOp) (g : Wsa),
    RefcountExact g → TameRun ops g → RefcountExact (runOps ops g) := by
  intro ops
  induction ops with
  | nil => intro g h _; exact h
  | cons op ops ih =>
    intro g h ht
    obtain ⟨h1, h2, h3⟩ := ht
    exact ih (op.run g) (refcount_step g op h h2 h1) h3

theorem refcount_exact_start : RefcountExact Wsa.start :=
  ⟨rfl, fun h => absurd h (by decide)⟩

/-- With an exact count, the destructor calls WSACleanup exactly when it
destroys the last live socket that holds a valid handle. -/
theorem dtor_teardown (g : Wsa) (idx : Nat) (hinv : RefcountExact g)
    (hsmall : g.socks.length + 1 < 2 ^ 64) :
    (Socket_dtor idx g).cleanups =
      g.cleanups + (if idx < g.socks.length ∧ g.socks.getD idx INVALID_SOCKET ≠ INVALID_SOCKET ∧
        liveValid g = 1 then 1 else 0) := by
  obtain ⟨h1, h2⟩ := hinv
  have hle := liveValid_le g
  unfold Socket_dtor
  by_cases hidx : idx < g.socks.length
  · rw [if_pos hidx]
    by_cases hs : g.socks.getD idx INVALID_SOCKET = INVALID_SOCKET
    · simp only [hs, ne_eq, not_true_eq_false, if_false, false_and, and_false, Nat.add_zero]
    · have hrc : (g.wsadataRefcount_ + 2 ^ 64 - 1) % 2 ^ 64 = g.wsadataRefcount_ - 1 := by
        have her := liveValid_eraseIdx g.socks idx hidx
        have e : (if g.socks.getD idx INVALID_SOCKET ≠ INVALID_SOCKET then 1 else 0) = 1 :=
          if_pos hs
        rw [e] at her
        unfold liveValid at h1 hle
        have hpos : 1 ≤ g.wsadataRefcount_ := by omega
        have : g.wsadataRefcount_ + 2 ^ 64 - 1 = (g.wsadataRefcount_ - 1) + 2 ^ 64 := by omega
        rw [this, Nat.add_mod_right, Nat.mod_eq_of_lt (by omega)]
      simp only [hs, ne_eq, not_false_eq_true, if_true, hrc, hidx, true_and]
      by_cases h0 : g.wsadataRefcount_ - 1 = 0
      · have hone : liveValid g = 1 := by
          have her := liveValid_eraseIdx g.socks idx hidx
          have e : (if g.socks.getD idx INVALID_SOCKET ≠ INVALID_SOCKET then 1 else 0) = 1 :=
            if_pos hs
          rw [e] at her
          unfold liveValid at h1 ⊢
          omega
        simp only [h0, if_true, hone, and_true]
      · have hne : ¬ liveValid g = 1 := by omega
        simp only [h0, if_false, hne, and_false, Nat.add_zero]
  · rw [if_neg hidx]
    simp only [hidx, false_and, if_false, Nat.add_zero]

/-! ## rng.h: claims -/

/-- C1. Prefix stability of fillRandom: for all lengths L1 < L2 the first L1
bytes of the length-L2 payload are exactly the length-L1 payload, whether or
not L1 is a multiple of 8. -/
theorem fillRandom_take (L1 L2 : Nat) (h : L1 < L2) :
    (fillRandom L2).take L1 = fillRandom L1 := by
  rw [fillRandom_eq_map, fillRandom_eq_map, ← List.map_take, List.take_range,
    Nat.min_eq_left (Nat.le_of_lt h)]

theorem fillRandom_take_witness :
    3 < 13 ∧ (fillRandom 13).take 3 = fillRandom 3 :=
  ⟨by decide, fillRandom_take 3 13 (by decide)⟩

/-- C2. Reference definition of the payload: fillRandom L writes exactly L
bytes, and for every index i < L byte i is byte (i mod 8), least-significant
byte first, of xorshift64 applied (i / 8 + 1) times to the fixed seed
0xCAFEBABEDEADBEEF; the generator state runs on from word to word. -/
theorem fillRandom_spec (L : Nat) :
    (fillRandom L).length = L ∧
    ∀ i, i < L →
      (fillRandom L)[i]? =
        some ((xorshift64^[i / 8 + 1] 0xCAFEBABEDEADBEEF >>> (8 * (i % 8))) % 256) := by
  rw [fillRandom_eq_map]
  refine ⟨by simp, ?_⟩
  intro i hi
  simp [List.getElem?_map, List.getElem?_range hi, refByteFrom, wordByte, SUGGEST_INITIAL]

/-! ## Transfer loops: claims -/

/-- C3. Whole-buffer transfer under short transfers: for every buffer size
S > 0 and every transport schedule in which each send/recv call moves at
least one byte and at most the requested length, each of the four transfer
loops (server receive, server echo, client send, client receive) terminates
within S iterations with its offset i equal to S, issues only calls that stay
inside the S bytes of the buffer and tile the offsets 0 .. S-1 in order, and
leaves the destination byte-identical to the source. -/
theorem transfer_loops_complete (S fuel : Nat) (buf : List Nat) (w : World)
    (hS : 0 < S) (hfuel : S ≤ fuel) (hbuf : buf.length = S) (hp : Progress w.conn) :
    (S ≤ w.conn.rx.length →
      RecvAllOk S w (recvLoop "Error receiving data from client." S fuel 0 buf w)) ∧
    SendAllOk S buf w (sendLoop "Error sending data to client." S buf fuel 0 w) ∧
    SendAllOk S buf w (sendLoop "Error sending data to server" S buf fuel 0 w) ∧
    (S ≤ w.conn.rx.length →
      RecvAllOk S w (recvLoop "Error receiving data from server" S fuel 0 buf w)) := by
  have _ := hS
  exact ⟨recvLoop_all _ S fuel buf w hfuel hbuf hp, sendLoop_all _ S fuel buf w hfuel hbuf hp,
    sendLoop_all _ S fuel buf w hfuel hbuf hp, recvLoop_all _ S fuel buf w hfuel hbuf hp⟩

theorem transfer_loops_complete_witness :
    (0 < 3 ∧ 3 ≤ 3 ∧ [0, 0, 0].length = 3) ∧
    RecvAllOk 3 ⟨[], ⟨[7, 8, 9, 1], [], fun _ => Ev.move 2, 0⟩⟩
      (recvLoop "Error receiving data from client." 3 3 0 [0, 0, 0]
        ⟨[], ⟨[7, 8, 9, 1], [], fun _ => Ev.move 2, 0⟩⟩) ∧
    SendAllOk 3 [0, 0, 0] ⟨[], ⟨[7, 8, 9, 1], [], fun _ => Ev.move 2, 0⟩⟩
      (sendLoop "Error sending data to client." 3 [0, 0, 0] 3 0
        ⟨[], ⟨[7, 8, 9, 1], [], fun _ => Ev.move 2, 0⟩⟩) :=
  have h := transfer_loops_complete 3 3 [0, 0, 0]
    ⟨[], ⟨[7, 8, 9, 1], [], fun _ => Ev.move 2, 0⟩⟩ (by decide) (by decide) (by decide)
    (fun _ _ => ⟨2, by decide, rfl⟩)
  ⟨⟨by decide, by decide, by decide⟩, h.1 (by decide), h.2.1⟩

/-! ## Echo cycle: claims -/

/-- C4. Echo round trip: for every buffer size S in [1, 2^31-1] and every
payload P of length S, when the transport reports no error a server cycle
that reads command byte 1 followed by P writes exactly the acknowledgment
byte 1 followed by the S bytes of P, in order; and one client repetition
composed with one server cycle over a lossless in-order stream ends with the
client's receive buffer equal to the payload, the comparison passing: the
client does not return, and after its transfers it logs the comparison, the
report and the pause, not the mismatch diagnostic. -/
theorem echo_round_trip (S fuel : Nat) (P recvBuff : List Nat) (cw sw : World)
    (hS : 1 ≤ S) (hmax : S ≤ 2 ^ 31 - 1) (hfuel : S ≤ fuel) (hP : P.length = S)
    (hbuf : recvBuff.length = S) (hpc : Progress cw.conn) (hps : Progress sw.conn) :
    (∀ rest, sw.conn.rx = 1 :: (P ++ rest) →
      ∃ sw', serverCycle S fuel recvBuff sw = some (false, P, sw') ∧
        sw'.conn.tx = sw.conn.tx ++ 1 :: P ∧ sw'.conn.rx = rest) ∧
    (cw.conn.rx = [] → sw.conn.rx = [] →
      ∃ (cw' sw' : World) (sent got : List Nat),
        echoCycle S P fuel recvBuff cw sw = some ((false, P, cw'), (false, P, sw')) ∧
        sw'.conn.tx = sw.conn.tx ++ 1 :: P ∧ cw'.conn.tx = cw.conn.tx ++ 1 :: P ∧
        sw'.conn.rx = [] ∧ cw'.conn.rx = [] ∧
        cw'.log = cw.log ++ [Op.send 0 1 1, Op.puts "Sending ..."] ++
          xferOps Op.send S 0 sent ++ [Op.recv 0 1 1, Op.puts "Receiving ..."] ++
          xferOps Op.recv S 0 got ++ compareOps true) := by
  have _ := hS
  have _ := hmax
  constructor
  · intro rest hrx
    obtain ⟨sw', h1, h2, h3, -, -⟩ := serverCycle_echo S fuel P rest recvBuff sw hfuel hP hbuf hps hrx
    exact ⟨sw', h1, h2, h3⟩
  · intro hcrx hsrx
    obtain ⟨cw1, hc1, hctx, hcrx1, hcs, hcc, sent, hlog1⟩ :=
      clientSend_ok S fuel P cw hfuel hP hpc
    have hsent : cw1.conn.tx.drop cw.conn.tx.length = 1 :: (P ++ []) := by
      rw [hctx, List.drop_left, List.append_nil]
    obtain ⟨sw1, hs1, hstx, hsrx1, -, -⟩ :=
      serverCycle_echo S fuel P [] recvBuff (sw.deliver (cw1.conn.tx.drop cw.conn.tx.length))
        hfuel hP hbuf (Progress.next hps rfl (Nat.le_refl _))
        (by simp only [World.deliver, hsrx, hsent, List.nil_append])
    have hecho : sw1.conn.tx.drop sw.conn.tx.length = 1 :: P := by
      rw [hstx]; simp only [World.deliver]; rw [List.drop_left]
    obtain ⟨cw2, h2tx, h2rx, -, -, hc2, got, hlog2⟩ :=
      clientRecv_ok S fuel P (List.replicate S 0) P [] 1
        (cw1.deliver (sw1.conn.tx.drop sw.conn.tx.length))
        hfuel hP hP (List.length_replicate _ _) (Progress.next hpc hcs hcc)
        (by simp only [World.deliver, hcrx1, hcrx, hecho, List.nil_append, List.append_nil])
    refine ⟨{ log := cw2.log ++ compareOps true, conn := cw2.conn }, sw1, sent, got,
      ?_, ?_, ?_, hsrx1, h2rx, ?_⟩
    · unfold echoCycle
      simp only [hc1, hs1, hc2]
      simp
    · rw [hstx]; simp only [World.deliver]
    · simp only [h2tx, World.deliver, hctx]
    · simp only [hlog2, World.deliver, hlog1]

theorem echo_round_trip_witness :
    (1 ≤ 2 ∧ 2 ≤ 2 ^ 31 - 1 ∧ [5, 6].length = 2) ∧
    ∃ cw' sw', echoCycle 2 [5, 6] 2 [0, 0]
        ⟨[], ⟨[], [], fun _ => Ev.move 1, 0⟩⟩ ⟨[], ⟨[], [], fun _ => Ev.move 3, 0⟩⟩ =
          some ((false, [5, 6], cw'), (false, [5, 6], sw')) ∧
        sw'.conn.tx = [1, 5, 6] ∧ cw'.conn.tx = [1, 5, 6] :=
  have h := (echo_round_trip 2 2 [5, 6] [0, 0]
    ⟨[], ⟨[], [], fun _ => Ev.move 1, 0⟩⟩ ⟨[], ⟨[], [], fun _ => Ev.move 3, 0⟩⟩
    (by decide) (by decide) (by decide) (by decide) (by decide)
    (fun _ _ => ⟨1, by decide, rfl⟩) (fun _ _ => ⟨3, by decide, rfl⟩)).2 rfl rfl
  ⟨⟨by decide, by decide, by decide⟩,
    h.elim fun cw' h => h.elim fun sw' h => h.elim fun _ h => h.elim fun _ h =>
      ⟨cw', sw', h.1, h.2.1, h.2.2.1⟩⟩

/-! ## Server sessions: claims -/

/-- C5. Invalid size header: when the header read of an accepted connection
returns a count other than 4, or a value <= 0, the server performs for that
connection only the header read and one diagnostic (no allocation, no read of
a command byte, nothing sent), closes the connection, and goes on with the
accept loop, whose next action is again accept(). -/
theorem invalid_header_ends_session (fuel : Nat) (c : Conn) (backlog : List (Option Conn))
    (w : World) (h : (recv c 4).1 ≠ 4 ∨ readInt (recv c 4).2.1 ≤ 0) :
    ∃ (diag : String) (w' : World),
      (diag = "Invalid buffer length." ∨ diag = "Invalid buffer size.") ∧
      w'.log = w.log ++ [Op.puts "Waiting for connection ...", Op.accept,
        Op.recv 0 4 (recv c 4).1, Op.puts diag, Op.closesocket] ∧
      w'.conn.tx = c.tx ∧ w'.conn.calls = c.calls + 1 ∧
      command_server fuel (some c :: backlog) w = command_server fuel backlog w' ∧
      (backlog = [] → command_server fuel (some c :: backlog) w =
        some { w' with log := w'.log ++ [Op.puts "Waiting for connection ...", Op.accept] }) ∧
      ∀ r, command_server fuel backlog w' = some r →
        w'.log ++ [Op.puts "Waiting for connection ...", Op.accept] <+: r.log := by
  by_cases h4 : (recv c 4).1 = 4
  · have hsz : readInt (recv c 4).2.1 ≤ 0 := by
      rcases h with h | h
      · exact absurd h4 h
      · exact h
    refine ⟨"Invalid buffer size.",
      ⟨w.log ++ [Op.puts "Waiting for connection ...", Op.accept, Op.recv 0 4 (recv c 4).1,
        Op.puts "Invalid buffer size.", Op.closesocket], (recv c 4).2.2⟩,
      Or.inr rfl, rfl, recv_tx c 4, recv_calls c 4, ?_, ?_, ?_⟩
    · simp only [command_server, World.emit, h4, ne_eq, not_true_eq_false, if_false, hsz,
        if_true, List.append_assoc, List.singleton_append, List.cons_append, List.nil_append]
    · intro hb
      subst hb
      simp only [command_server, World.emit, h4, ne_eq, not_true_eq_false, if_false, hsz,
        if_true, List.append_assoc, List.singleton_append, List.cons_append, List.nil_append]
    · intro r hr
      exact command_server_log fuel backlog _ r hr
  · refine ⟨"Invalid buffer length.",
      ⟨w.log ++ [Op.puts "Waiting for connection ...", Op.accept, Op.recv 0 4 (recv c 4).1,
        Op.puts "Invalid buffer length.", Op.closesocket], (recv c 4).2.2⟩,
      Or.inl rfl, rfl, recv_tx c 4, recv_calls c 4, ?_, ?_, ?_⟩
    · simp only [command_server, World.emit, h4, ne_eq, not_false_eq_true, if_true,
        List.append_assoc, List.singleton_append, List.cons_append, List.nil_append]
    · intro hb
      subst hb
      simp only [command_server, World.emit, h4, ne_eq, not_false_eq_true, if_true,
        List.append_assoc, List.singleton_append, List.cons_append, List.nil_append]
    · intro r hr
      exact command_server_log fuel backlog _ r hr

theorem invalid_header_ends_session_witness :
    readInt (recv ⟨[255, 255, 255, 255, 1], [], fun _ => Ev.move 4, 0⟩ 4).2.1 = -1 ∧
    ∃ (diag : String) (w' : World),
      w'.log = [] ++ [Op.puts "Waiting for connection ...", Op.accept,
        Op.recv 0 4 (recv ⟨[255, 255, 255, 255, 1], [], fun _ => Ev.move 4, 0⟩ 4).1,
        Op.puts diag, Op.closesocket] ∧
      command_server 0 [some ⟨[255, 255, 255, 255, 1], [], fun _ => Ev.move 4, 0⟩]
          ⟨[], ⟨[], [], fun _ => Ev.err, 0⟩⟩ =
        some { w' with log := w'.log ++ [Op.puts "Waiting for connection ...", Op.accept] } :=
  have h := invalid_header_ends_session 0
    ⟨[255, 255, 255, 255, 1], [], fun _ => Ev.move 4, 0⟩ []
    ⟨[], ⟨[], [], fun _ => Ev.err, 0⟩⟩ (Or.inr (by decide))
  ⟨by decide, h.elim fun diag h => h.elim fun w' h => ⟨diag, w', h.2.1, h.2.2.2.2.2.1 rfl⟩⟩

/-- C6. Non-proceed command bytes: when a session in the AwaitingCommand state
reads a command byte other than 1, the command loop ends at once: the only
actions are the read of that byte and one diagnostic ("Client asked to stop"
for 0, "Unknown command" otherwise); no acknowledgment or echo byte is sent
and nothing more is read on the connection; the connection is closed and the
server goes on with the accept loop, whose next action is accept(). -/
theorem non_proceed_command_ends_session (buffsz : Int) (sfuel fuel : Nat)
    (recvBuff : List Nat) (w : World) (backlog : List (Option Conn))
    (hrd : (recv w.conn 1).1 = 1) (hcmd : (recv w.conn 1).2.1.headD 0 ≠ 1) :
    ∃ (diag : String) (w' : World),
      diag = (if (recv w.conn 1).2.1.headD 0 = 0 then "Client asked to stop"
              else "Unknown command") ∧
      w'.log = w.log ++ [Op.puts "Processing data from client ...", Op.recv 0 1 1,
        Op.puts diag] ∧
      w'.conn = (recv w.conn 1).2.2 ∧ w'.conn.tx = w.conn.tx ∧
      w'.conn.calls = w.conn.calls + 1 ∧
      sessionLoop buffsz (sfuel + 1) recvBuff w = some w' ∧
      resumeSession buffsz (sfuel + 1) fuel recvBuff w backlog =
        command_server fuel backlog (w'.emit Op.closesocket) ∧
      ∀ r, command_server fuel backlog (w'.emit Op.closesocket) = some r →
        w'.log ++ [Op.closesocket, Op.puts "Waiting for connection ...", Op.accept] <+: r.log := by
  have hsess : sessionLoop buffsz (sfuel + 1) recvBuff w =
      some ⟨w.log ++ [Op.puts "Processing data from client ...", Op.recv 0 1 1,
        Op.puts (if (recv w.conn 1).2.1.headD 0 = 0 then "Client asked to stop"
          else "Unknown command")], (recv w.conn 1).2.2⟩ := by
    rw [sessionLoop, serverCycle]
    simp only [World.emit, hrd, ne_eq, not_true_eq_false, if_false, hcmd]
    by_cases h0 : (recv w.conn 1).2.1.headD 0 = 0
    · simp only [h0, if_true, List.append_assoc, List.singleton_append, List.cons_append,
        List.nil_append]
    · simp only [h0, if_false, List.append_assoc, List.singleton_append, List.cons_append,
        List.nil_append]
  refine ⟨_, _, rfl, rfl, rfl, recv_tx _ _, recv_calls _ _, hsess, ?_, ?_⟩
  · simp only [resumeSession, hsess]
  · intro r hr
    have h1 := command_server_log fuel backlog _ r hr
    simpa only [World.emit, List.append_assoc, List.singleton_append, List.cons_append,
      List.nil_append] using h1

theorem non_proceed_command_ends_session_witness :
    ((recv (⟨[7, 1, 2], [], fun _ => Ev.move 1, 5⟩ : Conn) 1).1 = 1 ∧
      (recv (⟨[7, 1, 2], [], fun _ => Ev.move 1, 5⟩ : Conn) 1).2.1.headD 0 = 7) ∧
    ∃ w' : World,
      w'.log = [] ++ [Op.puts "Processing data from client ...", Op.recv 0 1 1,
        Op.puts "Unknown command"] ∧
      w'.conn.tx = [] ∧ w'.conn.calls = 5 + 1 ∧
      sessionLoop 3 (0 + 1) [0, 0, 0] ⟨[], ⟨[7, 1, 2], [], fun _ => Ev.move 1, 5⟩⟩ = some w' :=
  have h := non_proceed_command_ends_session 3 0 0 [0, 0, 0]
    ⟨[], ⟨[7, 1, 2], [], fun _ => Ev.move 1, 5⟩⟩ [] (by decide) (by decide)
  ⟨⟨by decide, by decide⟩,
    h.elim fun diag h => h.elim fun w' h =>
      ⟨w', by rw [h.2.1, h.1]; rfl, h.2.2.2.1, h.2.2.2.2.1, h.2.2.2.2.2.1⟩⟩

/-- C9, the failing input. The peer disconnects while the server is in the
Receiving state: whatever the number of loop iterations allowed, the server
is still inside the receive loop and never gets back to accept(). -/
theorem receiving_ignores_disconnect :
    ∀ fuel, command_server fuel [some shortPeer] ⟨[], ⟨[], [], fun _ => Ev.err, 0⟩⟩ = none := by
  intro fuel
  have h4 : recv shortPeer 4 = (4, [2, 0, 0, 0], ⟨[1, 7], [], fun _ => Ev.move 8, 1⟩) := rfl
  have hsz : readInt [2, 0, 0, 0] = 2 := by decide
  simp only [command_server, World.emit, h4, hsz, ne_eq, not_true_eq_false, if_false]
  cases fuel with
  | zero => simp [sessionLoop]
  | succ f =>
    rw [sessionLoop, serverCycle]
    have h1 : recv ⟨[1, 7], [], fun _ => Ev.move 8, 1⟩ 1 =
        (1, [1], ⟨[7], [], fun _ => Ev.move 8, 2⟩) := rfl
    simp only [World.emit, h1, ne_eq, not_true_eq_false, if_false, List.headD_cons, if_true]
    cases f with
    | zero =>
      rw [recvLoop]
      simp
    | succ g =>
      rw [recvLoop_step _ _ _ _ _ _ 8 (by decide) rfl]
      rw [recvLoop_eof _ _ _ _ _ _ (by decide) (by decide) (fun _ => ⟨8, rfl⟩)]
      simp

/-! ## Client run: claims -/

/-- C7, counterexample. With buffer-size argument "0" (which parses to 0) the
client has already called connect when it prints the diagnostic. -/
theorem client_connects_before_size_check :
    demoEnv.stoi "0" = some 0 ∧
    (command_client demoEnv SockType.TCP ["1", "0", "host=h", "port=1"] 0 idleWorld).map
        (fun r => (r.1, r.2.log)) =
      some (Exit.ret, [Op.connect 0, Op.puts "Invalid buffer size."]) := by
  decide

/-- C7, amended. When the socket object is created, the options parse, the
connection to the server succeeds, the repetition count parses to a positive
value and the buffer-size argument parses to a value <= 0, the client has
connected to the server and then returns with the "Invalid buffer size."
diagnostic: its only actions are the connect and the diagnostic, no buffer is
allocated and no byte is sent or received on the connection. -/
theorem zero_buffer_aborts_after_connect (env : Env) (sockType : SockType)
    (argv : List String) (fuel : Nat) (w w1 : World) (obj : SockType × Bool)
    (opts : SockArg) (rep v : Int)
    (hobj : get_socket_object env sockType = Except.ok (some obj))
    (hopt : parse_socket_options ((argv.length : Int) - 2) (argv.drop 2) = Except.ok opts)
    (hconn : connectSocket env obj opts w = Except.ok (0, w1))
    (hargc : 2 ≤ argv.length)
    (hrep : env.stoi (argv.getD 0 "") = some rep) (hpos : 0 < rep)
    (hsz : env.stoi (argv.getD 1 "") = some v) (hv : v ≤ 0) :
    ∃ w' : World,
      command_client env sockType argv fuel w = some (Exit.ret, w') ∧
      w'.log = w.log ++ [Op.connect 0, Op.puts "Invalid buffer size."] ∧
      w'.conn = w.conn := by
  have hw1 := connectSocket_ok env obj opts w w1 0 hconn
  have hargc' : ¬ ((argv.length : Int) < 2) := by omega
  have hpos' : ¬ rep ≤ 0 := by omega
  refine ⟨w1.emit (Op.puts "Invalid buffer size."), ?_, ?_, ?_⟩
  · unfold command_client
    simp only [hobj, hopt, hconn, ne_eq, not_true_eq_false, if_false, hargc', hrep, hpos',
      hsz, hv, if_true]
  · rw [hw1]; simp [World.emit]
  · rw [hw1]; rfl

theorem zero_buffer_aborts_after_connect_witness :
    ∃ w' : World,
      command_client demoEnv SockType.TCP ["2", "0", "host=h", "port=1"] 5 idleWorld =
        some (Exit.ret, w') ∧
      w'.log = idleWorld.log ++ [Op.connect 0, Op.puts "Invalid buffer size."] ∧
      w'.conn = idleWorld.conn :=
  zero_buffer_aborts_after_connect demoEnv SockType.TCP ["2", "0", "host=h", "port=1"] 5
    idleWorld (idleWorld.emit (Op.connect 0)) (SockType.TCP, true)
    [("port", "1"), ("host", "h")] 2 0 rfl rfl rfl (by decide) rfl (by decide) rfl (by decide)


/-- C8. Integrity failure is fatal: in every repetition of the client loop
whose transfers succeed, if the S bytes received differ from the reference
payload in at least one position the run ends in that repetition with the
data-mismatch diagnostic as its last action, having sent one command byte and
one payload and nothing after them, and no later repetition runs; if the
bytes agree the comparison does not end the run and the loop goes on with the
next repetition. -/
theorem mismatch_is_fatal (S fuel n : Nat) (ref R rest : List Nat) (a : Nat) (w : World)
    (hS : 0 < S) (hfuel : S ≤ fuel) (href : ref.length = S) (hR : R.length = S)
    (hp : Progress w.conn) (hrx : w.conn.rx = a :: (R ++ rest)) :
    ∃ (w1 : World) (sent got : List Nat),
      w1.conn.tx = w.conn.tx ++ 1 :: ref ∧ w1.conn.rx = rest ∧
      w1.log = w.log ++ [Op.send 0 1 1, Op.puts "Sending ..."] ++ xferOps Op.send S 0 sent ++
        [Op.recv 0 1 1, Op.puts "Receiving ..."] ++ xferOps Op.recv S 0 got ∧
      ((∃ j, j < S ∧ R[j]? ≠ ref[j]?) →
        clientLoop S ref fuel (n + 1) w =
          some { log := w1.log ++ [Op.puts "Comparing data ...", Op.puts "Data mismatch!"],
                 conn := w1.conn }) ∧
      (R = ref →
        clientLoop S ref fuel (n + 1) w =
          clientLoop S ref fuel n { log := w1.log ++ compareOps true, conn := w1.conn }) := by
  have _ := hS
  obtain ⟨w', hsend, htx', hrx', hs', hc', sent, hlog'⟩ := clientSend_ok S fuel ref w hfuel href hp
  obtain ⟨w1, htx1, hrx1, -, -, hrecv, got, hlog1⟩ :=
    clientRecv_ok S fuel ref (List.replicate S 0) R rest a w' hfuel href hR
      (List.length_replicate _ _) (Progress.next hp hs' hc') (by rw [hrx', hrx])
  refine ⟨w1, sent, got, by rw [htx1, htx'], hrx1, by rw [hlog1, hlog'], ?_, ?_⟩
  · rintro ⟨j, _, hj⟩
    have hne : R ≠ ref := fun h => hj (by rw [h])
    rw [clientLoop, clientIter]
    simp only [hsend, hrecv]
    simp [hne, compareOps]
  · intro hEq
    rw [clientLoop, clientIter]
    simp only [hsend, hrecv]
    simp [hEq]

theorem mismatch_is_fatal_witness :
    (0 < 2 ∧ 2 ≤ 2 ∧ [5, 6].length = 2 ∧ [5, 7].length = 2) ∧
    ∃ w1 : World,
      w1.conn.tx = [] ++ 1 :: [5, 6] ∧ w1.conn.rx = [9] ∧
      clientLoop 2 [5, 6] 2 (3 + 1) ⟨[], ⟨1 :: ([5, 7] ++ [9]), [], fun _ => Ev.move 1, 0⟩⟩ =
        some { log := w1.log ++ [Op.puts "Comparing data ...", Op.puts "Data mismatch!"],
               conn := w1.conn } :=
  have h := mismatch_is_fatal 2 2 3 [5, 6] [5, 7] [9] 1
    ⟨[], ⟨1 :: ([5, 7] ++ [9]), [], fun _ => Ev.move 1, 0⟩⟩
    (by decide) (by decide) (by decide) (by decide)
    (fun _ _ => ⟨1, by decide, rfl⟩) rfl
  ⟨⟨by decide, by decide, by decide, by decide⟩,
    h.elim fun w1 h => h.elim fun _ h => h.elim fun _ h =>
      ⟨w1, h.1, h.2.1, h.2.2.2.1 ⟨1, by decide, by decide⟩⟩⟩

/-! ## Reference count: claims -/

/-- C10, the failing input. Two sockets with valid handles are constructed and
the second is move-assigned to the first: the count stays 2 while one live
socket holds a valid handle, the handle 5 is never closed, and after both
objects are destroyed the count is 1 and WSACleanup has not been called. -/
theorem move_assign_breaks_refcount :
    (runOps [SockOp.ctor true 5, SockOp.ctor true 6, SockOp.moveAssign 0 1]
        Wsa.start).wsadataRefcount_ = 2 ∧
    liveValid (runOps [SockOp.ctor true 5, SockOp.ctor true 6, SockOp.moveAssign 0 1]
        Wsa.start) = 1 ∧
    runOps [SockOp.ctor true 5, SockOp.ctor true 6, SockOp.moveAssign 0 1,
        SockOp.dtor 0, SockOp.dtor 0] Wsa.start =
      { wsadataValid_ := true, wsadataRefcount_ := 1, socks := [], cleanups := 0,
        closed := [6] } := by
  decide

end SockTest
